import Mathlib

/-!
Verification of `push_rules.go` from the go-gitlab client library.

The file shallowly embeds the push-rule resource client: the `PushRules`
data structure and its JSON (un)marshalling under Go's `omitempty`
semantics, the `AddPushRulesOptions` payload type, the URL construction
via `url.QueryEscape`, and the four operations `GetPushRule`,
`AddPushRule`, `EditPushRule`, `DeletePushRule`.  The shared HTTP client
(`NewRequest` / `Do`) is an external collaborator; it is modelled as an
oracle describing the outcome of each call, and every operation records
the calls it makes to the collaborator as a trace of events, so that
claims about call counts and request shapes can be stated.
-/

set_option autoImplicit false

namespace PushRulesSpec

/-- A JSON value, as produced by Go's `encoding/json`. -/
inductive Json where
  | null
  | bool (b : Bool)
  | num (n : Int)
  | str (s : String)
  | arr (xs : List Json)
  | obj (fields : List (String × Json))

/-- The field list of a JSON object (empty for non-objects). -/
def Json.objFields : Json → List (String × Json)
  | .obj fs => fs
  | _ => []

/-- The key list of a JSON object (empty for non-objects). -/
def Json.objKeys (j : Json) : List String :=
  j.objFields.map Prod.fst

/-- A Go `error` value, opaque to this component: only its message is kept. -/
structure GoError where
  msg : String
deriving DecidableEq, Repr

/-- A Go `time.Time`, kept abstract as its RFC 3339 wire representation,
which is how `encoding/json` serializes it. -/
structure GoTime where
  rfc3339 : String
deriving DecidableEq, Repr

/-- Embedding of the Go struct `PushRules` (push_rules.go lines 9-21).
`ID` and `PID` are plain Go `int`s; the other nine fields are pointers,
embedded as `Option`. -/
structure PushRules where
  ID : Int
  PID : Int
  CommitMessageRegex : Option String
  BranchNameRegex : Option String
  DenyDeleteTag : Option Bool
  CreatedAt : Option GoTime
  MemberCheck : Option Bool
  PreventSecrets : Option Bool
  AuthorEmailRegex : Option String
  FileNameRegex : Option String
  MaxFileSizeMB : Option Int
deriving DecidableEq, Repr

/-- Embedding of the Go struct `AddPushRulesOptions` (push_rules.go lines
53-62): eight pointer fields, all tagged `omitempty`. -/
structure AddPushRulesOptions where
  CommitMessageRegex : Option String
  BranchNameRegex : Option String
  DenyDeleteTag : Option Bool
  MemberCheck : Option Bool
  PreventSecrets : Option Bool
  AuthorEmailRegex : Option String
  FileNameRegex : Option String
  MaxFileSizeMB : Option Int
deriving DecidableEq, Repr

/-- Embedding of `type EditPushRulesOptions AddPushRulesOptions`
(push_rules.go line 88): the same field set and JSON tags. -/
abbrev EditPushRulesOptions := AddPushRulesOptions

/-- One `omitempty` pointer field: a `nil` pointer contributes nothing to
the serialized object, a non-nil pointer contributes one key. -/
def jfield (name : String) : Option Json → List (String × Json)
  | none => []
  | some v => [(name, v)]

/-- One `omitempty` plain-`int` field: Go omits the field exactly when the
value is the zero value `0`. -/
def intField (name : String) (n : Int) : List (String × Json) :=
  if n = 0 then [] else [(name, Json.num n)]

/-- `encoding/json` marshalling of `PushRules`: the JSON tags of
push_rules.go lines 10-20, each with `omitempty`. -/
def PushRules.marshal (p : PushRules) : Json :=
  Json.obj
    (intField "id" p.ID ++
     intField "project_id" p.PID ++
     jfield "commit_message_regex" (p.CommitMessageRegex.map Json.str) ++
     jfield "branch_name_regex" (p.BranchNameRegex.map Json.str) ++
     jfield "deny_delete_tag" (p.DenyDeleteTag.map Json.bool) ++
     jfield "created_at" (p.CreatedAt.map fun t => Json.str t.rfc3339) ++
     jfield "member_check" (p.MemberCheck.map Json.bool) ++
     jfield "prevent_secrets" (p.PreventSecrets.map Json.bool) ++
     jfield "author_email_regex" (p.AuthorEmailRegex.map Json.str) ++
     jfield "file_name_regex" (p.FileNameRegex.map Json.str) ++
     jfield "max_file_size" (p.MaxFileSizeMB.map Json.num))

/-- `encoding/json` marshalling of `AddPushRulesOptions`: the JSON tags of
push_rules.go lines 54-61, each with `omitempty`. -/
def AddPushRulesOptions.marshal (o : AddPushRulesOptions) : Json :=
  Json.obj
    (jfield "commit_message_regex" (o.CommitMessageRegex.map Json.str) ++
     jfield "branch_name_regex" (o.BranchNameRegex.map Json.str) ++
     jfield "deny_delete_tag" (o.DenyDeleteTag.map Json.bool) ++
     jfield "member_check" (o.MemberCheck.map Json.bool) ++
     jfield "prevent_secrets" (o.PreventSecrets.map Json.bool) ++
     jfield "author_email_regex" (o.AuthorEmailRegex.map Json.str) ++
     jfield "file_name_regex" (o.FileNameRegex.map Json.str) ++
     jfield "max_file_size" (o.MaxFileSizeMB.map Json.num))

/-- `encoding/json` unmarshalling of one object member into a `PushRules`
value, following the JSON tags of push_rules.go lines 10-20: a matching,
well-typed member sets its field, anything else leaves the value alone. -/
def setField (p : PushRules) (kv : String × Json) : PushRules :=
  if kv.1 = "id" then
    match kv.2 with | Json.num n => { p with ID := n } | _ => p
  else if kv.1 = "project_id" then
    match kv.2 with | Json.num n => { p with PID := n } | _ => p
  else if kv.1 = "commit_message_regex" then
    match kv.2 with | Json.str s => { p with CommitMessageRegex := some s } | _ => p
  else if kv.1 = "branch_name_regex" then
    match kv.2 with | Json.str s => { p with BranchNameRegex := some s } | _ => p
  else if kv.1 = "deny_delete_tag" then
    match kv.2 with | Json.bool b => { p with DenyDeleteTag := some b } | _ => p
  else if kv.1 = "created_at" then
    match kv.2 with | Json.str s => { p with CreatedAt := some (GoTime.mk s) } | _ => p
  else if kv.1 = "member_check" then
    match kv.2 with | Json.bool b => { p with MemberCheck := some b } | _ => p
  else if kv.1 = "prevent_secrets" then
    match kv.2 with | Json.bool b => { p with PreventSecrets := some b } | _ => p
  else if kv.1 = "author_email_regex" then
    match kv.2 with | Json.str s => { p with AuthorEmailRegex := some s } | _ => p
  else if kv.1 = "file_name_regex" then
    match kv.2 with | Json.str s => { p with FileNameRegex := some s } | _ => p
  else if kv.1 = "max_file_size" then
    match kv.2 with | Json.num n => { p with MaxFileSizeMB := some n } | _ => p
  else p

/-- The Go zero value of `PushRules`, as produced by `new(PushRules)`:
zero `int`s and `nil` pointers. -/
def PushRules.zero : PushRules :=
  { ID := 0, PID := 0, CommitMessageRegex := none, BranchNameRegex := none,
    DenyDeleteTag := none, CreatedAt := none, MemberCheck := none,
    PreventSecrets := none, AuthorEmailRegex := none, FileNameRegex := none,
    MaxFileSizeMB := none }

/-- `encoding/json` unmarshalling of a JSON object into `new(PushRules)`:
start from the zero value and set each member in order. -/
def PushRules.unmarshal (fs : List (String × Json)) : PushRules :=
  fs.foldl setField PushRules.zero

/-- Hexadecimal upper-case digit, as used by Go's `net/url` escaping. -/
def hexUpper (n : Nat) : Char :=
  "0123456789ABCDEF".toList.getD n "0".toList.head!

/-- Escaping of one byte by Go's `url.QueryEscape`: alphanumerics and
`-`, `_`, `.`, `~` are kept, a space becomes `+`, everything else becomes
`%XX` with upper-case hex. -/
def escByte (b : Nat) : String :=
  if (65 ≤ b ∧ b ≤ 90) ∨ (97 ≤ b ∧ b ≤ 122) ∨ (48 ≤ b ∧ b ≤ 57) ∨
     b = 45 ∨ b = 95 ∨ b = 46 ∨ b = 126 then
    String.singleton (Char.ofNat b)
  else if b = 32 then "+"
  else
    "%" ++ String.singleton (hexUpper (b / 16)) ++ String.singleton (hexUpper (b % 16))

/-- The UTF-8 encoding of one character, as a list of byte values; Go
strings are byte strings and `url.QueryEscape` works byte-wise. -/
def utf8Bytes (c : Char) : List Nat :=
  let n := c.toNat
  if n < 128 then [n]
  else if n < 2048 then [192 + n / 64, 128 + n % 64]
  else if n < 65536 then [224 + n / 4096, 128 + n / 64 % 64, 128 + n % 64]
  else [240 + n / 262144, 128 + n / 4096 % 64, 128 + n / 64 % 64, 128 + n % 64]

/-- Go's `url.QueryEscape`, applied byte-wise to the UTF-8 encoding. -/
def queryEscape (s : String) : String :=
  String.join ((s.toList.flatMap utf8Bytes).map escByte)

/-- The dynamic `interface{}` project reference accepted by the four
operations: a Go `int`, a Go `string`, or a value of any other type
(carrying that type's name). -/
inductive ProjectRef where
  | intRef (n : Int)
  | strRef (s : String)
  | badRef (typeName : String)
deriving DecidableEq, Repr

/-- Modelled from the spec: the shared identifier-parsing helper
(`parseID`, an external collaborator not present in src/).  Per spec
sections 4.1, 6 and 7 it accepts either an integer (formatted as its
decimal string) or a non-empty string, and a wrong type or an empty
value yields a `ReferenceResolutionError` before any I/O. -/
def parseID : ProjectRef → Except GoError String
  | .intRef n => .ok (toString n)
  | .strRef s =>
      if s = "" then .error (GoError.mk "invalid project reference: empty value")
      else .ok s
  | .badRef typeName =>
      .error (GoError.mk ("invalid ID type " ++ typeName ++
        ", the ID must be an int or a string"))

/-- An HTTP request as built by the shared client's `NewRequest`: method,
relative URL, and the JSON-encoded body (if a body value was given). -/
structure Request where
  method : String
  path : String
  body : Option Json

/-- An HTTP response as surfaced by the shared client's `Do`: the status
code and the members of the JSON object in the response body. -/
structure Response where
  statusCode : Nat
  bodyFields : List (String × Json)

/-- The outcome of one `Do` call: success with a decoded response, or an
error (transport, server status, or decoding), possibly still carrying a
response. -/
inductive DoOutcome where
  | ok (resp : Response)
  | fail (resp : Option Response) (e : GoError)

/-- The collaborator oracle: what the shared client's `NewRequest` and
`Do` would return for each call.  The component under verification holds
no state, so the oracle is a pure function of the call arguments. -/
structure ClientBehavior where
  newRequestOutcome : String → String → Option Json → Option GoError
  doOutcome : Request → DoOutcome

/-- One call made to the shared client, recorded in an operation's trace. -/
inductive Event where
  | newRequestCall (method : String) (path : String) (body : Option Json)
  | doCall (req : Request)

/-- The number of `Do` calls (network round trips) in a trace. -/
def doCalls (evs : List Event) : Nat :=
  (evs.filter fun e => match e with | .doCall _ => true | _ => false).length

/-- Result of `GetPushRule` / `AddPushRule` / `EditPushRule`: the three Go
return values plus the trace of collaborator calls. -/
structure RuleResult where
  rules : Option PushRules
  resp : Option Response
  err : Option GoError
  events : List Event

/-- Result of `DeletePushRule`: the two Go return values plus the trace. -/
structure DeleteResult where
  resp : Option Response
  err : Option GoError
  events : List Event

/-- Embedding of `GetPushRule` (push_rules.go lines 32-51). -/
def GetPushRule (c : ClientBehavior) (pid : ProjectRef) : RuleResult :=
  match parseID pid with
  | .error e => { rules := none, resp := none, err := some e, events := [] }
  | .ok project =>
    let u := "projects/" ++ queryEscape project ++ "/push_rule"
    match c.newRequestOutcome "GET" u none with
    | some e =>
        { rules := none, resp := none, err := some e,
          events := [.newRequestCall "GET" u none] }
    | none =>
        let req : Request := { method := "GET", path := u, body := none }
        match c.doOutcome req with
        | .fail r e =>
            { rules := none, resp := r, err := some e,
              events := [.newRequestCall "GET" u none, .doCall req] }
        | .ok r =>
            { rules := some (PushRules.unmarshal r.bodyFields), resp := some r,
              err := none,
              events := [.newRequestCall "GET" u none, .doCall req] }

/-- Result of `AddPushRule` / `EditPushRule` together with the final
contents of the caller's options struct (the Go functions receive a
pointer to it; the embedding threads the pointee explicitly so that the
absence of mutation is a statable property). -/
structure WriteResult where
  rules : Option PushRules
  resp : Option Response
  err : Option GoError
  events : List Event
  optAfter : AddPushRulesOptions

/-- Embedding of `AddPushRule` (push_rules.go lines 67-86).  No statement
of the Go function writes through the `opt` pointer, so the pointee after
the call is the caller's original value at every exit. -/
def AddPushRule (c : ClientBehavior) (pid : ProjectRef)
    (opt : AddPushRulesOptions) : WriteResult :=
  match parseID pid with
  | .error e =>
      { rules := none, resp := none, err := some e, events := [], optAfter := opt }
  | .ok project =>
    let u := "projects/" ++ queryEscape project ++ "/push_rule"
    let body := some opt.marshal
    match c.newRequestOutcome "POST" u body with
    | some e =>
        { rules := none, resp := none, err := some e,
          events := [.newRequestCall "POST" u body], optAfter := opt }
    | none =>
        let req : Request := { method := "POST", path := u, body := body }
        match c.doOutcome req with
        | .fail r e =>
            { rules := none, resp := r, err := some e,
              events := [.newRequestCall "POST" u body, .doCall req],
              optAfter := opt }
        | .ok r =>
            { rules := some (PushRules.unmarshal r.bodyFields), resp := some r,
              err := none,
              events := [.newRequestCall "POST" u body, .doCall req],
              optAfter := opt }

/-- Embedding of `EditPushRule` (push_rules.go lines 93-112); identical to
`AddPushRule` except for the HTTP method `PUT`. -/
def EditPushRule (c : ClientBehavior) (pid : ProjectRef)
    (opt : EditPushRulesOptions) : WriteResult :=
  match parseID pid with
  | .error e =>
      { rules := none, resp := none, err := some e, events := [], optAfter := opt }
  | .ok project =>
    let u := "projects/" ++ queryEscape project ++ "/push_rule"
    let body := some opt.marshal
    match c.newRequestOutcome "PUT" u body with
    | some e =>
        { rules := none, resp := none, err := some e,
          events := [.newRequestCall "PUT" u body], optAfter := opt }
    | none =>
        let req : Request := { method := "PUT", path := u, body := body }
        match c.doOutcome req with
        | .fail r e =>
            { rules := none, resp := r, err := some e,
              events := [.newRequestCall "PUT" u body, .doCall req],
              optAfter := opt }
        | .ok r =>
            { rules := some (PushRules.unmarshal r.bodyFields), resp := some r,
              err := none,
              events := [.newRequestCall "PUT" u body, .doCall req],
              optAfter := opt }

/-- Embedding of `DeletePushRule` (push_rules.go lines 117-130). -/
def DeletePushRule (c : ClientBehavior) (pid : ProjectRef) : DeleteResult :=
  match parseID pid with
  | .error e => { resp := none, err := some e, events := [] }
  | .ok project =>
    let u := "projects/" ++ queryEscape project ++ "/push_rule"
    match c.newRequestOutcome "DELETE" u none with
    | some e =>
        { resp := none, err := some e, events := [.newRequestCall "DELETE" u none] }
    | none =>
        let req : Request := { method := "DELETE", path := u, body := none }
        match c.doOutcome req with
        | .fail r e =>
            { resp := r, err := some e,
              events := [.newRequestCall "DELETE" u none, .doCall req] }
        | .ok r =>
            { resp := some r, err := none,
              events := [.newRequestCall "DELETE" u none, .doCall req] }

end PushRulesSpec

namespace PushRulesSpec

/-! ## Helper lemmas about the four operations -/

lemma GetPushRule_head (c : ClientBehavior) (pid : ProjectRef) (project : String)
    (hp : parseID pid = .ok project) :
    (GetPushRule c pid).events.head? = some (Event.newRequestCall "GET"
      ("projects/" ++ queryEscape project ++ "/push_rule") none) := by
  simp only [GetPushRule, hp]
  split
  · rfl
  · split <;> rfl

lemma AddPushRule_head (c : ClientBehavior) (pid : ProjectRef)
    (opt : AddPushRulesOptions) (project : String)
    (hp : parseID pid = .ok project) :
    (AddPushRule c pid opt).events.head? = some (Event.newRequestCall "POST"
      ("projects/" ++ queryEscape project ++ "/push_rule") (some opt.marshal)) := by
  simp only [AddPushRule, hp]
  split
  · rfl
  · split <;> rfl

lemma EditPushRule_head (c : ClientBehavior) (pid : ProjectRef)
    (opt : EditPushRulesOptions) (project : String)
    (hp : parseID pid = .ok project) :
    (EditPushRule c pid opt).events.head? = some (Event.newRequestCall "PUT"
      ("projects/" ++ queryEscape project ++ "/push_rule") (some opt.marshal)) := by
  simp only [EditPushRule, hp]
  split
  · rfl
  · split <;> rfl

lemma DeletePushRule_head (c : ClientBehavior) (pid : ProjectRef) (project : String)
    (hp : parseID pid = .ok project) :
    (DeletePushRule c pid).events.head? = some (Event.newRequestCall "DELETE"
      ("projects/" ++ queryEscape project ++ "/push_rule") none) := by
  simp only [DeletePushRule, hp]
  split
  · rfl
  · split <;> rfl


lemma GetPushRule_parse_error (c : ClientBehavior) (pid : ProjectRef) (e : GoError)
    (hp : parseID pid = .error e) :
    GetPushRule c pid = { rules := none, resp := none, err := some e, events := [] } := by
  simp only [GetPushRule, hp]

lemma GetPushRule_newRequest_error (c : ClientBehavior) (pid : ProjectRef) (project : String)
    (e : GoError) (hp : parseID pid = .ok project)
    (hn : c.newRequestOutcome "GET" ("projects/" ++ queryEscape project ++ "/push_rule") none = some e) :
    GetPushRule c pid = { rules := none, resp := none, err := some e, events := [Event.newRequestCall "GET" ("projects/" ++ queryEscape project ++ "/push_rule") none] } := by
  simp only [GetPushRule, hp, hn]

lemma GetPushRule_do_fail (c : ClientBehavior) (pid : ProjectRef) (project : String)
    (r : Option Response) (e : GoError) (hp : parseID pid = .ok project)
    (hn : c.newRequestOutcome "GET" ("projects/" ++ queryEscape project ++ "/push_rule") none = none)
    (hd : c.doOutcome { method := "GET", path := "projects/" ++ queryEscape project ++ "/push_rule", body := none } = .fail r e) :
    GetPushRule c pid =
      { rules := none, resp := r, err := some e, events := [Event.newRequestCall "GET" ("projects/" ++ queryEscape project ++ "/push_rule") none, Event.doCall { method := "GET", path := "projects/" ++ queryEscape project ++ "/push_rule", body := none }] } := by
  simp only [GetPushRule, hp, hn, hd]

lemma GetPushRule_do_ok (c : ClientBehavior) (pid : ProjectRef) (project : String)
    (r : Response) (hp : parseID pid = .ok project)
    (hn : c.newRequestOutcome "GET" ("projects/" ++ queryEscape project ++ "/push_rule") none = none)
    (hd : c.doOutcome { method := "GET", path := "projects/" ++ queryEscape project ++ "/push_rule", body := none } = .ok r) :
    GetPushRule c pid =
      { rules := some (PushRules.unmarshal r.bodyFields), resp := some r, err := none, events := [Event.newRequestCall "GET" ("projects/" ++ queryEscape project ++ "/push_rule") none, Event.doCall { method := "GET", path := "projects/" ++ queryEscape project ++ "/push_rule", body := none }] } := by
  simp only [GetPushRule, hp, hn, hd]

lemma AddPushRule_parse_error (c : ClientBehavior) (pid : ProjectRef)
    (opt : AddPushRulesOptions) (e : GoError)
    (hp : parseID pid = .error e) :
    AddPushRule c pid opt = { rules := none, resp := none, err := some e, events := [], optAfter := opt } := by
  simp only [AddPushRule, hp]

lemma AddPushRule_newRequest_error (c : ClientBehavior) (pid : ProjectRef)
    (opt : AddPushRulesOptions) (project : String)
    (e : GoError) (hp : parseID pid = .ok project)
    (hn : c.newRequestOutcome "POST" ("projects/" ++ queryEscape project ++ "/push_rule") (some opt.marshal) = some e) :
    AddPushRule c pid opt = { rules := none, resp := none, err := some e, events := [Event.newRequestCall "POST" ("projects/" ++ queryEscape project ++ "/push_rule") (some opt.marshal)], optAfter := opt } := by
  simp only [AddPushRule, hp, hn]

lemma AddPushRule_do_fail (c : ClientBehavior) (pid : ProjectRef)
    (opt : AddPushRulesOptions) (project : String)
    (r : Option Response) (e : GoError) (hp : parseID pid = .ok project)
    (hn : c.newRequestOutcome "POST" ("projects/" ++ queryEscape project ++ "/push_rule") (some opt.marshal) = none)
    (hd : c.doOutcome { method := "POST", path := "projects/" ++ queryEscape project ++ "/push_rule", body := (some opt.marshal) } = .fail r e) :
    AddPushRule c pid opt =
      { rules := none, resp := r, err := some e, events := [Event.newRequestCall "POST" ("projects/" ++ queryEscape project ++ "/push_rule") (some opt.marshal), Event.doCall { method := "POST", path := "projects/" ++ queryEscape project ++ "/push_rule", body := (some opt.marshal) }], optAfter := opt } := by
  simp only [AddPushRule, hp, hn, hd]

lemma AddPushRule_do_ok (c : ClientBehavior) (pid : ProjectRef)
    (opt : AddPushRulesOptions) (project : String)
    (r : Response) (hp : parseID pid = .ok project)
    (hn : c.newRequestOutcome "POST" ("projects/" ++ queryEscape project ++ "/push_rule") (some opt.marshal) = none)
    (hd : c.doOutcome { method := "POST", path := "projects/" ++ queryEscape project ++ "/push_rule", body := (some opt.marshal) } = .ok r) :
    AddPushRule c pid opt =
      { rules := some (PushRules.unmarshal r.bodyFields), resp := some r, err := none, events := [Event.newRequestCall "POST" ("projects/" ++ queryEscape project ++ "/push_rule") (some opt.marshal), Event.doCall { method := "POST", path := "projects/" ++ queryEscape project ++ "/push_rule", body := (some opt.marshal) }], optAfter := opt } := by
  simp only [AddPushRule, hp, hn, hd]

lemma EditPushRule_parse_error (c : ClientBehavior) (pid : ProjectRef)
    (opt : EditPushRulesOptions) (e : GoError)
    (hp : parseID pid = .error e) :
    EditPushRule c pid opt = { rules := none, resp := none, err := some e, events := [], optAfter := opt } := by
  simp only [EditPushRule, hp]

lemma EditPushRule_newRequest_error (c : ClientBehavior) (pid : ProjectRef)
    (opt : EditPushRulesOptions) (project : String)
    (e : GoError) (hp : parseID pid = .ok project)
    (hn : c.newRequestOutcome "PUT" ("projects/" ++ queryEscape project ++ "/push_rule") (some opt.marshal) = some e) :
    EditPushRule c pid opt = { rules := none, resp := none, err := some e, events := [Event.newRequestCall "PUT" ("projects/" ++ queryEscape project ++ "/push_rule") (some opt.marshal)], optAfter := opt } := by
  simp only [EditPushRule, hp, hn]

lemma EditPushRule_do_fail (c : ClientBehavior) (pid : ProjectRef)
    (opt : EditPushRulesOptions) (project : String)
    (r : Option Response) (e : GoError) (hp : parseID pid = .ok project)
    (hn : c.newRequestOutcome "PUT" ("projects/" ++ queryEscape project ++ "/push_rule") (some opt.marshal) = none)
    (hd : c.doOutcome { method := "PUT", path := "projects/" ++ queryEscape project ++ "/push_rule", body := (some opt.marshal) } = .fail r e) :
    EditPushRule c pid opt =
      { rules := none, resp := r, err := some e, events := [Event.newRequestCall "PUT" ("projects/" ++ queryEscape project ++ "/push_rule") (some opt.marshal), Event.doCall { method := "PUT", path := "projects/" ++ queryEscape project ++ "/push_rule", body := (some opt.marshal) }], optAfter := opt } := by
  simp only [EditPushRule, hp, hn, hd]

lemma EditPushRule_do_ok (c : ClientBehavior) (pid : ProjectRef)
    (opt : EditPushRulesOptions) (project : String)
    (r : Response) (hp : parseID pid = .ok project)
    (hn : c.newRequestOutcome "PUT" ("projects/" ++ queryEscape project ++ "/push_rule") (some opt.marshal) = none)
    (hd : c.doOutcome { method := "PUT", path := "projects/" ++ queryEscape project ++ "/push_rule", body := (some opt.marshal) } = .ok r) :
    EditPushRule c pid opt =
      { rules := some (PushRules.unmarshal r.bodyFields), resp := some r, err := none, events := [Event.newRequestCall "PUT" ("projects/" ++ queryEscape project ++ "/push_rule") (some opt.marshal), Event.doCall { method := "PUT", path := "projects/" ++ queryEscape project ++ "/push_rule", body := (some opt.marshal) }], optAfter := opt } := by
  simp only [EditPushRule, hp, hn, hd]

lemma DeletePushRule_parse_error (c : ClientBehavior) (pid : ProjectRef) (e : GoError)
    (hp : parseID pid = .error e) :
    DeletePushRule c pid = { resp := none, err := some e, events := [] } := by
  simp only [DeletePushRule, hp]

lemma DeletePushRule_newRequest_error (c : ClientBehavior) (pid : ProjectRef) (project : String)
    (e : GoError) (hp : parseID pid = .ok project)
    (hn : c.newRequestOutcome "DELETE" ("projects/" ++ queryEscape project ++ "/push_rule") none = some e) :
    DeletePushRule c pid = { resp := none, err := some e, events := [Event.newRequestCall "DELETE" ("projects/" ++ queryEscape project ++ "/push_rule") none] } := by
  simp only [DeletePushRule, hp, hn]

lemma DeletePushRule_do_fail (c : ClientBehavior) (pid : ProjectRef) (project : String)
    (r : Option Response) (e : GoError) (hp : parseID pid = .ok project)
    (hn : c.newRequestOutcome "DELETE" ("projects/" ++ queryEscape project ++ "/push_rule") none = none)
    (hd : c.doOutcome { method := "DELETE", path := "projects/" ++ queryEscape project ++ "/push_rule", body := none } = .fail r e) :
    DeletePushRule c pid =
      { resp := r, err := some e, events := [Event.newRequestCall "DELETE" ("projects/" ++ queryEscape project ++ "/push_rule") none, Event.doCall { method := "DELETE", path := "projects/" ++ queryEscape project ++ "/push_rule", body := none }] } := by
  simp only [DeletePushRule, hp, hn, hd]

lemma DeletePushRule_do_ok (c : ClientBehavior) (pid : ProjectRef) (project : String)
    (r : Response) (hp : parseID pid = .ok project)
    (hn : c.newRequestOutcome "DELETE" ("projects/" ++ queryEscape project ++ "/push_rule") none = none)
    (hd : c.doOutcome { method := "DELETE", path := "projects/" ++ queryEscape project ++ "/push_rule", body := none } = .ok r) :
    DeletePushRule c pid =
      { resp := some r, err := none, events := [Event.newRequestCall "DELETE" ("projects/" ++ queryEscape project ++ "/push_rule") none, Event.doCall { method := "DELETE", path := "projects/" ++ queryEscape project ++ "/push_rule", body := none }] } := by
  simp only [DeletePushRule, hp, hn, hd]


/-! ## JSON key lemmas -/

lemma keys_jfield (n : String) (o : Option Json) :
    (jfield n o).map Prod.fst = if o.isSome then [n] else [] := by
  cases o <;> rfl

lemma mem_keys_jfield (a n : String) (o : Option Json) :
    a ∈ (jfield n o).map Prod.fst ↔ a = n ∧ o.isSome := by
  cases o <;> simp [jfield]

lemma mem_keys_intField (a n : String) (m : Int) :
    a ∈ (intField n m).map Prod.fst ↔ a = n ∧ m ≠ 0 := by
  unfold intField
  split_ifs with h <;> simp [h]

/-- The wire names of the populated (non-nil) fields of an options value,
in field order: the "populated subset" of the spec's sparse-payload
property. -/
def populatedFields (o : AddPushRulesOptions) : List String :=
  (if o.CommitMessageRegex.isSome then ["commit_message_regex"] else []) ++
  (if o.BranchNameRegex.isSome then ["branch_name_regex"] else []) ++
  (if o.DenyDeleteTag.isSome then ["deny_delete_tag"] else []) ++
  (if o.MemberCheck.isSome then ["member_check"] else []) ++
  (if o.PreventSecrets.isSome then ["prevent_secrets"] else []) ++
  (if o.AuthorEmailRegex.isSome then ["author_email_regex"] else []) ++
  (if o.FileNameRegex.isSome then ["file_name_regex"] else []) ++
  (if o.MaxFileSizeMB.isSome then ["max_file_size"] else [])

/-- The eleven JSON wire names of the `PushRules` fields, as listed by the
spec's wire contract. -/
def wireNames : List String :=
  ["id", "project_id", "commit_message_regex", "branch_name_regex",
   "deny_delete_tag", "created_at", "member_check", "prevent_secrets",
   "author_email_regex", "file_name_regex", "max_file_size"]

lemma objKeys_marshalOptions (o : AddPushRulesOptions) :
    Json.objKeys o.marshal = populatedFields o := by
  simp only [AddPushRulesOptions.marshal, Json.objKeys, Json.objFields,
    populatedFields, List.map_append, keys_jfield, Option.isSome_map']



lemma mem_objKeys_marshal (p : PushRules) (a : String) :
    a ∈ Json.objKeys p.marshal ↔
      (a = "id" ∧ p.ID ≠ 0) ∨ (a = "project_id" ∧ p.PID ≠ 0) ∨
      (a = "commit_message_regex" ∧ p.CommitMessageRegex.isSome) ∨
      (a = "branch_name_regex" ∧ p.BranchNameRegex.isSome) ∨
      (a = "deny_delete_tag" ∧ p.DenyDeleteTag.isSome) ∨
      (a = "created_at" ∧ p.CreatedAt.isSome) ∨
      (a = "member_check" ∧ p.MemberCheck.isSome) ∨
      (a = "prevent_secrets" ∧ p.PreventSecrets.isSome) ∨
      (a = "author_email_regex" ∧ p.AuthorEmailRegex.isSome) ∨
      (a = "file_name_regex" ∧ p.FileNameRegex.isSome) ∨
      (a = "max_file_size" ∧ p.MaxFileSizeMB.isSome) := by
  unfold PushRules.marshal Json.objKeys Json.objFields
  simp only [List.map_append, List.mem_append, mem_keys_jfield, mem_keys_intField,
    Option.isSome_map', or_assoc]

lemma mem_intField (kv : String × Json) (n : String) (m : Int)
    (h : kv ∈ intField n m) : kv = (n, Json.num m) := by
  unfold intField at h
  split at h
  · exact absurd h (List.not_mem_nil _)
  · simpa using h

lemma mem_jfield_map {α : Type} (kv : String × Json) (n : String) (f : α → Json)
    (o : Option α) (h : kv ∈ jfield n (o.map f)) :
    ∃ v, o = some v ∧ kv = (n, f v) := by
  cases o with
  | none => exact absurd h (List.not_mem_nil _)
  | some v => exact ⟨v, rfl, by simpa [jfield] using h⟩

/-- No member of a marshalled `PushRules` value is JSON `null`: `omitempty`
omits unset fields instead of emitting null. -/
lemma marshal_no_null (p : PushRules) :
    ∀ kv ∈ (PushRules.marshal p).objFields, kv.2 ≠ Json.null := by
  intro kv hkv
  unfold PushRules.marshal Json.objFields at hkv
  simp only [List.mem_append, or_assoc] at hkv
  rcases hkv with h | h | h | h | h | h | h | h | h | h | h
  · rw [mem_intField kv _ _ h]
    simp
  · rw [mem_intField kv _ _ h]
    simp
  all_goals
    obtain ⟨v, hv, rfl⟩ := mem_jfield_map kv _ _ _ h
    simp

/-- No member of a marshalled `AddPushRulesOptions` value is JSON `null`. -/
lemma marshalOptions_no_null (o : AddPushRulesOptions) :
    ∀ kv ∈ (AddPushRulesOptions.marshal o).objFields, kv.2 ≠ Json.null := by
  intro kv hkv
  unfold AddPushRulesOptions.marshal Json.objFields at hkv
  simp only [List.mem_append, or_assoc] at hkv
  rcases hkv with h | h | h | h | h | h | h | h
  all_goals
    obtain ⟨v, hv, rfl⟩ := mem_jfield_map kv _ _ _ h
    simp


/-! ## `setField` leaves fields with a different wire name unchanged -/

lemma setField_ID (p : PushRules) (kv : String × Json) (h : kv.1 ≠ "id") :
    (setField p kv).ID = p.ID := by
  obtain ⟨k, v⟩ := kv
  simp only at h
  unfold setField
  dsimp only
  by_cases h1 : k = "id"
  · exact absurd h1 h
  · rw [if_neg h1]
    by_cases h2 : k = "project_id"
    · rw [if_pos h2]
      cases v <;> rfl
    · rw [if_neg h2]
      by_cases h3 : k = "commit_message_regex"
      · rw [if_pos h3]
        cases v <;> rfl
      · rw [if_neg h3]
        by_cases h4 : k = "branch_name_regex"
        · rw [if_pos h4]
          cases v <;> rfl
        · rw [if_neg h4]
          by_cases h5 : k = "deny_delete_tag"
          · rw [if_pos h5]
            cases v <;> rfl
          · rw [if_neg h5]
            by_cases h6 : k = "created_at"
            · rw [if_pos h6]
              cases v <;> rfl
            · rw [if_neg h6]
              by_cases h7 : k = "member_check"
              · rw [if_pos h7]
                cases v <;> rfl
              · rw [if_neg h7]
                by_cases h8 : k = "prevent_secrets"
                · rw [if_pos h8]
                  cases v <;> rfl
                · rw [if_neg h8]
                  by_cases h9 : k = "author_email_regex"
                  · rw [if_pos h9]
                    cases v <;> rfl
                  · rw [if_neg h9]
                    by_cases h10 : k = "file_name_regex"
                    · rw [if_pos h10]
                      cases v <;> rfl
                    · rw [if_neg h10]
                      by_cases h11 : k = "max_file_size"
                      · rw [if_pos h11]
                        cases v <;> rfl
                      · rw [if_neg h11]
                        try rfl

lemma setField_PID (p : PushRules) (kv : String × Json) (h : kv.1 ≠ "project_id") :
    (setField p kv).PID = p.PID := by
  obtain ⟨k, v⟩ := kv
  simp only at h
  unfold setField
  dsimp only
  by_cases h1 : k = "id"
  · rw [if_pos h1]
    cases v <;> rfl
  · rw [if_neg h1]
    by_cases h2 : k = "project_id"
    · exact absurd h2 h
    · rw [if_neg h2]
      by_cases h3 : k = "commit_message_regex"
      · rw [if_pos h3]
        cases v <;> rfl
      · rw [if_neg h3]
        by_cases h4 : k = "branch_name_regex"
        · rw [if_pos h4]
          cases v <;> rfl
        · rw [if_neg h4]
          by_cases h5 : k = "deny_delete_tag"
          · rw [if_pos h5]
            cases v <;> rfl
          · rw [if_neg h5]
            by_cases h6 : k = "created_at"
            · rw [if_pos h6]
              cases v <;> rfl
            · rw [if_neg h6]
              by_cases h7 : k = "member_check"
              · rw [if_pos h7]
                cases v <;> rfl
              · rw [if_neg h7]
                by_cases h8 : k = "prevent_secrets"
                · rw [if_pos h8]
                  cases v <;> rfl
                · rw [if_neg h8]
                  by_cases h9 : k = "author_email_regex"
                  · rw [if_pos h9]
                    cases v <;> rfl
                  · rw [if_neg h9]
                    by_cases h10 : k = "file_name_regex"
                    · rw [if_pos h10]
                      cases v <;> rfl
                    · rw [if_neg h10]
                      by_cases h11 : k = "max_file_size"
                      · rw [if_pos h11]
                        cases v <;> rfl
                      · rw [if_neg h11]
                        try rfl

lemma setField_CommitMessageRegex (p : PushRules) (kv : String × Json) (h : kv.1 ≠ "commit_message_regex") :
    (setField p kv).CommitMessageRegex = p.CommitMessageRegex := by
  obtain ⟨k, v⟩ := kv
  simp only at h
  unfold setField
  dsimp only
  by_cases h1 : k = "id"
  · rw [if_pos h1]
    cases v <;> rfl
  · rw [if_neg h1]
    by_cases h2 : k = "project_id"
    · rw [if_pos h2]
      cases v <;> rfl
    · rw [if_neg h2]
      by_cases h3 : k = "commit_message_regex"
      · exact absurd h3 h
      · rw [if_neg h3]
        by_cases h4 : k = "branch_name_regex"
        · rw [if_pos h4]
          cases v <;> rfl
        · rw [if_neg h4]
          by_cases h5 : k = "deny_delete_tag"
          · rw [if_pos h5]
            cases v <;> rfl
          · rw [if_neg h5]
            by_cases h6 : k = "created_at"
            · rw [if_pos h6]
              cases v <;> rfl
            · rw [if_neg h6]
              by_cases h7 : k = "member_check"
              · rw [if_pos h7]
                cases v <;> rfl
              · rw [if_neg h7]
                by_cases h8 : k = "prevent_secrets"
                · rw [if_pos h8]
                  cases v <;> rfl
                · rw [if_neg h8]
                  by_cases h9 : k = "author_email_regex"
                  · rw [if_pos h9]
                    cases v <;> rfl
                  · rw [if_neg h9]
                    by_cases h10 : k = "file_name_regex"
                    · rw [if_pos h10]
                      cases v <;> rfl
                    · rw [if_neg h10]
                      by_cases h11 : k = "max_file_size"
                      · rw [if_pos h11]
                        cases v <;> rfl
                      · rw [if_neg h11]
                        try rfl

lemma setField_BranchNameRegex (p : PushRules) (kv : String × Json) (h : kv.1 ≠ "branch_name_regex") :
    (setField p kv).BranchNameRegex = p.BranchNameRegex := by
  obtain ⟨k, v⟩ := kv
  simp only at h
  unfold setField
  dsimp only
  by_cases h1 : k = "id"
  · rw [if_pos h1]
    cases v <;> rfl
  · rw [if_neg h1]
    by_cases h2 : k = "project_id"
    · rw [if_pos h2]
      cases v <;> rfl
    · rw [if_neg h2]
      by_cases h3 : k = "commit_message_regex"
      · rw [if_pos h3]
        cases v <;> rfl
      · rw [if_neg h3]
        by_cases h4 : k = "branch_name_regex"
        · exact absurd h4 h
        · rw [if_neg h4]
          by_cases h5 : k = "deny_delete_tag"
          · rw [if_pos h5]
            cases v <;> rfl
          · rw [if_neg h5]
            by_cases h6 : k = "created_at"
            · rw [if_pos h6]
              cases v <;> rfl
            · rw [if_neg h6]
              by_cases h7 : k = "member_check"
              · rw [if_pos h7]
                cases v <;> rfl
              · rw [if_neg h7]
                by_cases h8 : k = "prevent_secrets"
                · rw [if_pos h8]
                  cases v <;> rfl
                · rw [if_neg h8]
                  by_cases h9 : k = "author_email_regex"
                  · rw [if_pos h9]
                    cases v <;> rfl
                  · rw [if_neg h9]
                    by_cases h10 : k = "file_name_regex"
                    · rw [if_pos h10]
                      cases v <;> rfl
                    · rw [if_neg h10]
                      by_cases h11 : k = "max_file_size"
                      · rw [if_pos h11]
                        cases v <;> rfl
                      · rw [if_neg h11]
                        try rfl

lemma setField_DenyDeleteTag (p : PushRules) (kv : String × Json) (h : kv.1 ≠ "deny_delete_tag") :
    (setField p kv).DenyDeleteTag = p.DenyDeleteTag := by
  obtain ⟨k, v⟩ := kv
  simp only at h
  unfold setField
  dsimp only
  by_cases h1 : k = "id"
  · rw [if_pos h1]
    cases v <;> rfl
  · rw [if_neg h1]
    by_cases h2 : k = "project_id"
    · rw [if_pos h2]
      cases v <;> rfl
    · rw [if_neg h2]
      by_cases h3 : k = "commit_message_regex"
      · rw [if_pos h3]
        cases v <;> rfl
      · rw [if_neg h3]
        by_cases h4 : k = "branch_name_regex"
        · rw [if_pos h4]
          cases v <;> rfl
        · rw [if_neg h4]
          by_cases h5 : k = "deny_delete_tag"
          · exact absurd h5 h
          · rw [if_neg h5]
            by_cases h6 : k = "created_at"
            · rw [if_pos h6]
              cases v <;> rfl
            · rw [if_neg h6]
              by_cases h7 : k = "member_check"
              · rw [if_pos h7]
                cases v <;> rfl
              · rw [if_neg h7]
                by_cases h8 : k = "prevent_secrets"
                · rw [if_pos h8]
                  cases v <;> rfl
                · rw [if_neg h8]
                  by_cases h9 : k = "author_email_regex"
                  · rw [if_pos h9]
                    cases v <;> rfl
                  · rw [if_neg h9]
                    by_cases h10 : k = "file_name_regex"
                    · rw [if_pos h10]
                      cases v <;> rfl
                    · rw [if_neg h10]
                      by_cases h11 : k = "max_file_size"
                      · rw [if_pos h11]
                        cases v <;> rfl
                      · rw [if_neg h11]
                        try rfl

lemma setField_CreatedAt (p : PushRules) (kv : String × Json) (h : kv.1 ≠ "created_at") :
    (setField p kv).CreatedAt = p.CreatedAt := by
  obtain ⟨k, v⟩ := kv
  simp only at h
  unfold setField
  dsimp only
  by_cases h1 : k = "id"
  · rw [if_pos h1]
    cases v <;> rfl
  · rw [if_neg h1]
    by_cases h2 : k = "project_id"
    · rw [if_pos h2]
      cases v <;> rfl
    · rw [if_neg h2]
      by_cases h3 : k = "commit_message_regex"
      · rw [if_pos h3]
        cases v <;> rfl
      · rw [if_neg h3]
        by_cases h4 : k = "branch_name_regex"
        · rw [if_pos h4]
          cases v <;> rfl
        · rw [if_neg h4]
          by_cases h5 : k = "deny_delete_tag"
          · rw [if_pos h5]
            cases v <;> rfl
          · rw [if_neg h5]
            by_cases h6 : k = "created_at"
            · exact absurd h6 h
            · rw [if_neg h6]
              by_cases h7 : k = "member_check"
              · rw [if_pos h7]
                cases v <;> rfl
              · rw [if_neg h7]
                by_cases h8 : k = "prevent_secrets"
                · rw [if_pos h8]
                  cases v <;> rfl
                · rw [if_neg h8]
                  by_cases h9 : k = "author_email_regex"
                  · rw [if_pos h9]
                    cases v <;> rfl
                  · rw [if_neg h9]
                    by_cases h10 : k = "file_name_regex"
                    · rw [if_pos h10]
                      cases v <;> rfl
                    · rw [if_neg h10]
                      by_cases h11 : k = "max_file_size"
                      · rw [if_pos h11]
                        cases v <;> rfl
                      · rw [if_neg h11]
                        try rfl

lemma setField_MemberCheck (p : PushRules) (kv : String × Json) (h : kv.1 ≠ "member_check") :
    (setField p kv).MemberCheck = p.MemberCheck := by
  obtain ⟨k, v⟩ := kv
  simp only at h
  unfold setField
  dsimp only
  by_cases h1 : k = "id"
  · rw [if_pos h1]
    cases v <;> rfl
  · rw [if_neg h1]
    by_cases h2 : k = "project_id"
    · rw [if_pos h2]
      cases v <;> rfl
    · rw [if_neg h2]
      by_cases h3 : k = "commit_message_regex"
      · rw [if_pos h3]
        cases v <;> rfl
      · rw [if_neg h3]
        by_cases h4 : k = "branch_name_regex"
        · rw [if_pos h4]
          cases v <;> rfl
        · rw [if_neg h4]
          by_cases h5 : k = "deny_delete_tag"
          · rw [if_pos h5]
            cases v <;> rfl
          · rw [if_neg h5]
            by_cases h6 : k = "created_at"
            · rw [if_pos h6]
              cases v <;> rfl
            · rw [if_neg h6]
              by_cases h7 : k = "member_check"
              · exact absurd h7 h
              · rw [if_neg h7]
                by_cases h8 : k = "prevent_secrets"
                · rw [if_pos h8]
                  cases v <;> rfl
                · rw [if_neg h8]
                  by_cases h9 : k = "author_email_regex"
                  · rw [if_pos h9]
                    cases v <;> rfl
                  · rw [if_neg h9]
                    by_cases h10 : k = "file_name_regex"
                    · rw [if_pos h10]
                      cases v <;> rfl
                    · rw [if_neg h10]
                      by_cases h11 : k = "max_file_size"
                      · rw [if_pos h11]
                        cases v <;> rfl
                      · rw [if_neg h11]
                        try rfl

lemma setField_PreventSecrets (p : PushRules) (kv : String × Json) (h : kv.1 ≠ "prevent_secrets") :
    (setField p kv).PreventSecrets = p.PreventSecrets := by
  obtain ⟨k, v⟩ := kv
  simp only at h
  unfold setField
  dsimp only
  by_cases h1 : k = "id"
  · rw [if_pos h1]
    cases v <;> rfl
  · rw [if_neg h1]
    by_cases h2 : k = "project_id"
    · rw [if_pos h2]
      cases v <;> rfl
    · rw [if_neg h2]
      by_cases h3 : k = "commit_message_regex"
      · rw [if_pos h3]
        cases v <;> rfl
      · rw [if_neg h3]
        by_cases h4 : k = "branch_name_regex"
        · rw [if_pos h4]
          cases v <;> rfl
        · rw [if_neg h4]
          by_cases h5 : k = "deny_delete_tag"
          · rw [if_pos h5]
            cases v <;> rfl
          · rw [if_neg h5]
            by_cases h6 : k = "created_at"
            · rw [if_pos h6]
              cases v <;> rfl
            · rw [if_neg h6]
              by_cases h7 : k = "member_check"
              · rw [if_pos h7]
                cases v <;> rfl
              · rw [if_neg h7]
                by_cases h8 : k = "prevent_secrets"
                · exact absurd h8 h
                · rw [if_neg h8]
                  by_cases h9 : k = "author_email_regex"
                  · rw [if_pos h9]
                    cases v <;> rfl
                  · rw [if_neg h9]
                    by_cases h10 : k = "file_name_regex"
                    · rw [if_pos h10]
                      cases v <;> rfl
                    · rw [if_neg h10]
                      by_cases h11 : k = "max_file_size"
                      · rw [if_pos h11]
                        cases v <;> rfl
                      · rw [if_neg h11]
                        try rfl

lemma setField_AuthorEmailRegex (p : PushRules) (kv : String × Json) (h : kv.1 ≠ "author_email_regex") :
    (setField p kv).AuthorEmailRegex = p.AuthorEmailRegex := by
  obtain ⟨k, v⟩ := kv
  simp only at h
  unfold setField
  dsimp only
  by_cases h1 : k = "id"
  · rw [if_pos h1]
    cases v <;> rfl
  · rw [if_neg h1]
    by_cases h2 : k = "project_id"
    · rw [if_pos h2]
      cases v <;> rfl
    · rw [if_neg h2]
      by_cases h3 : k = "commit_message_regex"
      · rw [if_pos h3]
        cases v <;> rfl
      · rw [if_neg h3]
        by_cases h4 : k = "branch_name_regex"
        · rw [if_pos h4]
          cases v <;> rfl
        · rw [if_neg h4]
          by_cases h5 : k = "deny_delete_tag"
          · rw [if_pos h5]
            cases v <;> rfl
          · rw [if_neg h5]
            by_cases h6 : k = "created_at"
            · rw [if_pos h6]
              cases v <;> rfl
            · rw [if_neg h6]
              by_cases h7 : k = "member_check"
              · rw [if_pos h7]
                cases v <;> rfl
              · rw [if_neg h7]
                by_cases h8 : k = "prevent_secrets"
                · rw [if_pos h8]
                  cases v <;> rfl
                · rw [if_neg h8]
                  by_cases h9 : k = "author_email_regex"
                  · exact absurd h9 h
                  · rw [if_neg h9]
                    by_cases h10 : k = "file_name_regex"
                    · rw [if_pos h10]
                      cases v <;> rfl
                    · rw [if_neg h10]
                      by_cases h11 : k = "max_file_size"
                      · rw [if_pos h11]
                        cases v <;> rfl
                      · rw [if_neg h11]
                        try rfl

lemma setField_FileNameRegex (p : PushRules) (kv : String × Json) (h : kv.1 ≠ "file_name_regex") :
    (setField p kv).FileNameRegex = p.FileNameRegex := by
  obtain ⟨k, v⟩ := kv
  simp only at h
  unfold setField
  dsimp only
  by_cases h1 : k = "id"
  · rw [if_pos h1]
    cases v <;> rfl
  · rw [if_neg h1]
    by_cases h2 : k = "project_id"
    · rw [if_pos h2]
      cases v <;> rfl
    · rw [if_neg h2]
      by_cases h3 : k = "commit_message_regex"
      · rw [if_pos h3]
        cases v <;> rfl
      · rw [if_neg h3]
        by_cases h4 : k = "branch_name_regex"
        · rw [if_pos h4]
          cases v <;> rfl
        · rw [if_neg h4]
          by_cases h5 : k = "deny_delete_tag"
          · rw [if_pos h5]
            cases v <;> rfl
          · rw [if_neg h5]
            by_cases h6 : k = "created_at"
            · rw [if_pos h6]
              cases v <;> rfl
            · rw [if_neg h6]
              by_cases h7 : k = "member_check"
              · rw [if_pos h7]
                cases v <;> rfl
              · rw [if_neg h7]
                by_cases h8 : k = "prevent_secrets"
                · rw [if_pos h8]
                  cases v <;> rfl
                · rw [if_neg h8]
                  by_cases h9 : k = "author_email_regex"
                  · rw [if_pos h9]
                    cases v <;> rfl
                  · rw [if_neg h9]
                    by_cases h10 : k = "file_name_regex"
                    · exact absurd h10 h
                    · rw [if_neg h10]
                      by_cases h11 : k = "max_file_size"
                      · rw [if_pos h11]
                        cases v <;> rfl
                      · rw [if_neg h11]
                        try rfl

lemma setField_MaxFileSizeMB (p : PushRules) (kv : String × Json) (h : kv.1 ≠ "max_file_size") :
    (setField p kv).MaxFileSizeMB = p.MaxFileSizeMB := by
  obtain ⟨k, v⟩ := kv
  simp only at h
  unfold setField
  dsimp only
  by_cases h1 : k = "id"
  · rw [if_pos h1]
    cases v <;> rfl
  · rw [if_neg h1]
    by_cases h2 : k = "project_id"
    · rw [if_pos h2]
      cases v <;> rfl
    · rw [if_neg h2]
      by_cases h3 : k = "commit_message_regex"
      · rw [if_pos h3]
        cases v <;> rfl
      · rw [if_neg h3]
        by_cases h4 : k = "branch_name_regex"
        · rw [if_pos h4]
          cases v <;> rfl
        · rw [if_neg h4]
          by_cases h5 : k = "deny_delete_tag"
          · rw [if_pos h5]
            cases v <;> rfl
          · rw [if_neg h5]
            by_cases h6 : k = "created_at"
            · rw [if_pos h6]
              cases v <;> rfl
            · rw [if_neg h6]
              by_cases h7 : k = "member_check"
              · rw [if_pos h7]
                cases v <;> rfl
              · rw [if_neg h7]
                by_cases h8 : k = "prevent_secrets"
                · rw [if_pos h8]
                  cases v <;> rfl
                · rw [if_neg h8]
                  by_cases h9 : k = "author_email_regex"
                  · rw [if_pos h9]
                    cases v <;> rfl
                  · rw [if_neg h9]
                    by_cases h10 : k = "file_name_regex"
                    · rw [if_pos h10]
                      cases v <;> rfl
                    · rw [if_neg h10]
                      by_cases h11 : k = "max_file_size"
                      · exact absurd h11 h
                      · rw [if_neg h11]
                        try rfl

/-- Folding `setField` over members whose keys avoid a given wire name
leaves the projection for that name unchanged. -/
lemma foldl_setField_pres {β : Type} (proj : PushRules → β) (name : String)
    (hset : ∀ p kv, kv.1 ≠ name → proj (setField p kv) = proj p) :
    ∀ (fs : List (String × Json)) (p : PushRules), name ∉ fs.map Prod.fst →
      proj (fs.foldl setField p) = proj p := by
  intro fs
  induction fs with
  | nil => intro p _; rfl
  | cons kv t ih =>
      intro p hmem
      simp only [List.map_cons, List.mem_cons, not_or] at hmem
      rw [List.foldl_cons, ih _ hmem.2, hset p kv (fun he => hmem.1 he.symm)]


lemma GetPushRule_cases (c : ClientBehavior) (pid : ProjectRef) :
    (∃ e, parseID pid = .error e ∧ GetPushRule c pid = { rules := none, resp := none, err := some e, events := [] }) ∨
    (∃ project, parseID pid = .ok project ∧
      ((∃ e, c.newRequestOutcome "GET" ("projects/" ++ queryEscape project ++ "/push_rule") none = some e ∧
          GetPushRule c pid = { rules := none, resp := none, err := some e, events := [Event.newRequestCall "GET" ("projects/" ++ queryEscape project ++ "/push_rule") none] }) ∨
       (c.newRequestOutcome "GET" ("projects/" ++ queryEscape project ++ "/push_rule") none = none ∧
         ((∃ r e, c.doOutcome { method := "GET", path := "projects/" ++ queryEscape project ++ "/push_rule", body := none } = .fail r e ∧
             GetPushRule c pid = { rules := none, resp := r, err := some e, events := [Event.newRequestCall "GET" ("projects/" ++ queryEscape project ++ "/push_rule") none, Event.doCall { method := "GET", path := "projects/" ++ queryEscape project ++ "/push_rule", body := none }] }) ∨
          (∃ r, c.doOutcome { method := "GET", path := "projects/" ++ queryEscape project ++ "/push_rule", body := none } = .ok r ∧
             GetPushRule c pid = { rules := some (PushRules.unmarshal r.bodyFields), resp := some r, err := none, events := [Event.newRequestCall "GET" ("projects/" ++ queryEscape project ++ "/push_rule") none, Event.doCall { method := "GET", path := "projects/" ++ queryEscape project ++ "/push_rule", body := none }] }))))) := by
  cases hp : parseID pid with
  | error e => exact Or.inl ⟨e, rfl, GetPushRule_parse_error c pid e hp⟩
  | ok project =>
      refine Or.inr ⟨project, rfl, ?_⟩
      cases hn : c.newRequestOutcome "GET" ("projects/" ++ queryEscape project ++ "/push_rule") none with
      | some e => exact Or.inl ⟨e, rfl, GetPushRule_newRequest_error c pid project e hp hn⟩
      | none =>
          refine Or.inr ⟨rfl, ?_⟩
          cases hd : c.doOutcome { method := "GET", path := "projects/" ++ queryEscape project ++ "/push_rule", body := none } with
          | fail r e => exact Or.inl ⟨r, e, rfl, GetPushRule_do_fail c pid project r e hp hn hd⟩
          | ok r => exact Or.inr ⟨r, rfl, GetPushRule_do_ok c pid project r hp hn hd⟩

lemma AddPushRule_cases (c : ClientBehavior) (pid : ProjectRef) (opt : AddPushRulesOptions) :
    (∃ e, parseID pid = .error e ∧ AddPushRule c pid opt = { rules := none, resp := none, err := some e, events := [], optAfter := opt }) ∨
    (∃ project, parseID pid = .ok project ∧
      ((∃ e, c.newRequestOutcome "POST" ("projects/" ++ queryEscape project ++ "/push_rule") (some opt.marshal) = some e ∧
          AddPushRule c pid opt = { rules := none, resp := none, err := some e, events := [Event.newRequestCall "POST" ("projects/" ++ queryEscape project ++ "/push_rule") (some opt.marshal)], optAfter := opt }) ∨
       (c.newRequestOutcome "POST" ("projects/" ++ queryEscape project ++ "/push_rule") (some opt.marshal) = none ∧
         ((∃ r e, c.doOutcome { method := "POST", path := "projects/" ++ queryEscape project ++ "/push_rule", body := (some opt.marshal) } = .fail r e ∧
             AddPushRule c pid opt = { rules := none, resp := r, err := some e, events := [Event.newRequestCall "POST" ("projects/" ++ queryEscape project ++ "/push_rule") (some opt.marshal), Event.doCall { method := "POST", path := "projects/" ++ queryEscape project ++ "/push_rule", body := (some opt.marshal) }], optAfter := opt }) ∨
          (∃ r, c.doOutcome { method := "POST", path := "projects/" ++ queryEscape project ++ "/push_rule", body := (some opt.marshal) } = .ok r ∧
             AddPushRule c pid opt = { rules := some (PushRules.unmarshal r.bodyFields), resp := some r, err := none, events := [Event.newRequestCall "POST" ("projects/" ++ queryEscape project ++ "/push_rule") (some opt.marshal), Event.doCall { method := "POST", path := "projects/" ++ queryEscape project ++ "/push_rule", body := (some opt.marshal) }], optAfter := opt }))))) := by
  cases hp : parseID pid with
  | error e => exact Or.inl ⟨e, rfl, AddPushRule_parse_error c pid opt e hp⟩
  | ok project =>
      refine Or.inr ⟨project, rfl, ?_⟩
      cases hn : c.newRequestOutcome "POST" ("projects/" ++ queryEscape project ++ "/push_rule") (some opt.marshal) with
      | some e => exact Or.inl ⟨e, rfl, AddPushRule_newRequest_error c pid opt project e hp hn⟩
      | none =>
          refine Or.inr ⟨rfl, ?_⟩
          cases hd : c.doOutcome { method := "POST", path := "projects/" ++ queryEscape project ++ "/push_rule", body := (some opt.marshal) } with
          | fail r e => exact Or.inl ⟨r, e, rfl, AddPushRule_do_fail c pid opt project r e hp hn hd⟩
          | ok r => exact Or.inr ⟨r, rfl, AddPushRule_do_ok c pid opt project r hp hn hd⟩

lemma EditPushRule_cases (c : ClientBehavior) (pid : ProjectRef) (opt : AddPushRulesOptions) :
    (∃ e, parseID pid = .error e ∧ EditPushRule c pid opt = { rules := none, resp := none, err := some e, events := [], optAfter := opt }) ∨
    (∃ project, parseID pid = .ok project ∧
      ((∃ e, c.newRequestOutcome "PUT" ("projects/" ++ queryEscape project ++ "/push_rule") (some opt.marshal) = some e ∧
          EditPushRule c pid opt = { rules := none, resp := none, err := some e, events := [Event.newRequestCall "PUT" ("projects/" ++ queryEscape project ++ "/push_rule") (some opt.marshal)], optAfter := opt }) ∨
       (c.newRequestOutcome "PUT" ("projects/" ++ queryEscape project ++ "/push_rule") (some opt.marshal) = none ∧
         ((∃ r e, c.doOutcome { method := "PUT", path := "projects/" ++ queryEscape project ++ "/push_rule", body := (some opt.marshal) } = .fail r e ∧
             EditPushRule c pid opt = { rules := none, resp := r, err := some e, events := [Event.newRequestCall "PUT" ("projects/" ++ queryEscape project ++ "/push_rule") (some opt.marshal), Event.doCall { method := "PUT", path := "projects/" ++ queryEscape project ++ "/push_rule", body := (some opt.marshal) }], optAfter := opt }) ∨
          (∃ r, c.doOutcome { method := "PUT", path := "projects/" ++ queryEscape project ++ "/push_rule", body := (some opt.marshal) } = .ok r ∧
             EditPushRule c pid opt = { rules := some (PushRules.unmarshal r.bodyFields), resp := some r, err := none, events := [Event.newRequestCall "PUT" ("projects/" ++ queryEscape project ++ "/push_rule") (some opt.marshal), Event.doCall { method := "PUT", path := "projects/" ++ queryEscape project ++ "/push_rule", body := (some opt.marshal) }], optAfter := opt }))))) := by
  cases hp : parseID pid with
  | error e => exact Or.inl ⟨e, rfl, EditPushRule_parse_error c pid opt e hp⟩
  | ok project =>
      refine Or.inr ⟨project, rfl, ?_⟩
      cases hn : c.newRequestOutcome "PUT" ("projects/" ++ queryEscape project ++ "/push_rule") (some opt.marshal) with
      | some e => exact Or.inl ⟨e, rfl, EditPushRule_newRequest_error c pid opt project e hp hn⟩
      | none =>
          refine Or.inr ⟨rfl, ?_⟩
          cases hd : c.doOutcome { method := "PUT", path := "projects/" ++ queryEscape project ++ "/push_rule", body := (some opt.marshal) } with
          | fail r e => exact Or.inl ⟨r, e, rfl, EditPushRule_do_fail c pid opt project r e hp hn hd⟩
          | ok r => exact Or.inr ⟨r, rfl, EditPushRule_do_ok c pid opt project r hp hn hd⟩

lemma DeletePushRule_cases (c : ClientBehavior) (pid : ProjectRef) :
    (∃ e, parseID pid = .error e ∧ DeletePushRule c pid = { resp := none, err := some e, events := [] }) ∨
    (∃ project, parseID pid = .ok project ∧
      ((∃ e, c.newRequestOutcome "DELETE" ("projects/" ++ queryEscape project ++ "/push_rule") none = some e ∧
          DeletePushRule c pid = { resp := none, err := some e, events := [Event.newRequestCall "DELETE" ("projects/" ++ queryEscape project ++ "/push_rule") none] }) ∨
       (c.newRequestOutcome "DELETE" ("projects/" ++ queryEscape project ++ "/push_rule") none = none ∧
         ((∃ r e, c.doOutcome { method := "DELETE", path := "projects/" ++ queryEscape project ++ "/push_rule", body := none } = .fail r e ∧
             DeletePushRule c pid = { resp := r, err := some e, events := [Event.newRequestCall "DELETE" ("projects/" ++ queryEscape project ++ "/push_rule") none, Event.doCall { method := "DELETE", path := "projects/" ++ queryEscape project ++ "/push_rule", body := none }] }) ∨
          (∃ r, c.doOutcome { method := "DELETE", path := "projects/" ++ queryEscape project ++ "/push_rule", body := none } = .ok r ∧
             DeletePushRule c pid = { resp := some r, err := none, events := [Event.newRequestCall "DELETE" ("projects/" ++ queryEscape project ++ "/push_rule") none, Event.doCall { method := "DELETE", path := "projects/" ++ queryEscape project ++ "/push_rule", body := none }] }))))) := by
  cases hp : parseID pid with
  | error e => exact Or.inl ⟨e, rfl, DeletePushRule_parse_error c pid e hp⟩
  | ok project =>
      refine Or.inr ⟨project, rfl, ?_⟩
      cases hn : c.newRequestOutcome "DELETE" ("projects/" ++ queryEscape project ++ "/push_rule") none with
      | some e => exact Or.inl ⟨e, rfl, DeletePushRule_newRequest_error c pid project e hp hn⟩
      | none =>
          refine Or.inr ⟨rfl, ?_⟩
          cases hd : c.doOutcome { method := "DELETE", path := "projects/" ++ queryEscape project ++ "/push_rule", body := none } with
          | fail r e => exact Or.inl ⟨r, e, rfl, DeletePushRule_do_fail c pid project r e hp hn hd⟩
          | ok r => exact Or.inr ⟨r, rfl, DeletePushRule_do_ok c pid project r hp hn hd⟩


/-! ## Concrete fixtures used by witnesses -/

/-- A collaborator that always succeeds: `NewRequest` never fails and `Do`
returns 200 with an empty JSON object body. -/
def okClient : ClientBehavior :=
  { newRequestOutcome := fun _ _ _ => none,
    doOutcome := fun _ => DoOutcome.ok { statusCode := 200, bodyFields := [] } }

/-- Options with no field populated. -/
def noOptions : AddPushRulesOptions :=
  { CommitMessageRegex := none, BranchNameRegex := none, DenyDeleteTag := none,
    MemberCheck := none, PreventSecrets := none, AuthorEmailRegex := none,
    FileNameRegex := none, MaxFileSizeMB := none }

/-! ## Claims -/

/-- C1: for every project reference the identifier helper resolves (numeric
ID or "namespace/name" string), each of the four operations constructs the
request path `projects/<url-encoded-ref>/push_rule`, where the reference is
percent-encoded by `url.QueryEscape` (so `group/proj` becomes
`group%2Fproj`, while a numeric reference like `42` is unchanged). -/
theorem pushRule_request_path (c : ClientBehavior) (pid : ProjectRef)
    (opt : AddPushRulesOptions) (project : String)
    (hp : parseID pid = .ok project) :
    ((GetPushRule c pid).events.head? = some (Event.newRequestCall "GET"
        ("projects/" ++ queryEscape project ++ "/push_rule") none) ∧
     (AddPushRule c pid opt).events.head? = some (Event.newRequestCall "POST"
        ("projects/" ++ queryEscape project ++ "/push_rule") (some opt.marshal)) ∧
     (EditPushRule c pid opt).events.head? = some (Event.newRequestCall "PUT"
        ("projects/" ++ queryEscape project ++ "/push_rule") (some opt.marshal)) ∧
     (DeletePushRule c pid).events.head? = some (Event.newRequestCall "DELETE"
        ("projects/" ++ queryEscape project ++ "/push_rule") none)) ∧
    queryEscape "group/proj" = "group%2Fproj" ∧
    parseID (ProjectRef.intRef 42) = .ok "42" ∧
    queryEscape "42" = "42" :=
  ⟨⟨GetPushRule_head c pid project hp, AddPushRule_head c pid opt project hp,
    EditPushRule_head c pid opt project hp, DeletePushRule_head c pid project hp⟩,
   by decide, by rfl, by rfl⟩

theorem pushRule_request_path_witness :
    (GetPushRule okClient (ProjectRef.strRef "group/proj")).events.head? =
      some (Event.newRequestCall "GET" "projects/group%2Fproj/push_rule" none) := by
  have h := pushRule_request_path okClient (ProjectRef.strRef "group/proj")
    noOptions "group/proj" (by rfl)
  rw [h.1.1]
  rfl

/-- C6: for every project reference, all four operations construct the
identical request path and differ only in the HTTP method (GET, POST, PUT,
DELETE) and in whether a JSON body is attached (only POST and PUT carry
one). -/
theorem ops_identical_path (c : ClientBehavior) (pid : ProjectRef)
    (opt : AddPushRulesOptions) (project : String)
    (hp : parseID pid = .ok project) :
    ∃ u : String,
      (GetPushRule c pid).events.head? = some (Event.newRequestCall "GET" u none) ∧
      (AddPushRule c pid opt).events.head? =
        some (Event.newRequestCall "POST" u (some opt.marshal)) ∧
      (EditPushRule c pid opt).events.head? =
        some (Event.newRequestCall "PUT" u (some opt.marshal)) ∧
      (DeletePushRule c pid).events.head? =
        some (Event.newRequestCall "DELETE" u none) :=
  ⟨"projects/" ++ queryEscape project ++ "/push_rule",
   GetPushRule_head c pid project hp, AddPushRule_head c pid opt project hp,
   EditPushRule_head c pid opt project hp, DeletePushRule_head c pid project hp⟩

theorem ops_identical_path_witness :
    ∃ u : String,
      (GetPushRule okClient (ProjectRef.intRef 42)).events.head? =
        some (Event.newRequestCall "GET" u none) ∧
      (AddPushRule okClient (ProjectRef.intRef 42) noOptions).events.head? =
        some (Event.newRequestCall "POST" u (some noOptions.marshal)) ∧
      (EditPushRule okClient (ProjectRef.intRef 42) noOptions).events.head? =
        some (Event.newRequestCall "PUT" u (some noOptions.marshal)) ∧
      (DeletePushRule okClient (ProjectRef.intRef 42)).events.head? =
        some (Event.newRequestCall "DELETE" u none) :=
  ops_identical_path okClient (ProjectRef.intRef 42) noOptions "42" (by rfl)


/-- C2: for every options value (in particular one with only a strict
subset of fields populated), the JSON body that AddPushRule and
EditPushRule hand to request construction has as its key set exactly the
wire names of the populated fields; no unset field is ever sent. -/
theorem sparse_payload_exact (c : ClientBehavior) (pid : ProjectRef)
    (opt : AddPushRulesOptions) (project : String)
    (hp : parseID pid = .ok project) :
    (AddPushRule c pid opt).events.head? = some (Event.newRequestCall "POST"
        ("projects/" ++ queryEscape project ++ "/push_rule") (some opt.marshal)) ∧
    (EditPushRule c pid opt).events.head? = some (Event.newRequestCall "PUT"
        ("projects/" ++ queryEscape project ++ "/push_rule") (some opt.marshal)) ∧
    Json.objKeys opt.marshal = populatedFields opt :=
  ⟨AddPushRule_head c pid opt project hp, EditPushRule_head c pid opt project hp,
   objKeys_marshalOptions opt⟩

theorem sparse_payload_exact_witness :
    Json.objKeys (AddPushRulesOptions.marshal
      { noOptions with PreventSecrets := some true }) = ["prevent_secrets"] := by
  rw [(sparse_payload_exact okClient (ProjectRef.strRef "group/proj")
    { noOptions with PreventSecrets := some true } "group/proj" (by rfl)).2.2]
  rfl

/-- C10: AddPushRule and EditPushRule pass the caller's options value
through to request construction unmodified (every request body they build
is exactly the marshalling of the original options) and never mutate the
options struct: its contents after the call equal its contents before. -/
theorem options_passed_unmutated (c : ClientBehavior) (pid : ProjectRef)
    (opt : AddPushRulesOptions) :
    (AddPushRule c pid opt).optAfter = opt ∧
    (EditPushRule c pid opt).optAfter = opt ∧
    (∀ m u b, Event.newRequestCall m u b ∈ (AddPushRule c pid opt).events →
        b = some opt.marshal) ∧
    (∀ m u b, Event.newRequestCall m u b ∈ (EditPushRule c pid opt).events →
        b = some opt.marshal) := by
  have hA := AddPushRule_cases c pid opt
  have hE := EditPushRule_cases c pid opt
  refine ⟨?_, ?_, ?_, ?_⟩
  · rcases hA with ⟨e, hp, heq⟩ |
      ⟨project, hp, ⟨e, hn, heq⟩ | ⟨hn, ⟨r, e, hd, heq⟩ | ⟨r, hd, heq⟩⟩⟩ <;>
      simp [heq]
  · rcases hE with ⟨e, hp, heq⟩ |
      ⟨project, hp, ⟨e, hn, heq⟩ | ⟨hn, ⟨r, e, hd, heq⟩ | ⟨r, hd, heq⟩⟩⟩ <;>
      simp [heq]
  · intro m u b hb
    rcases hA with ⟨e, hp, heq⟩ |
      ⟨project, hp, ⟨e, hn, heq⟩ | ⟨hn, ⟨r, e, hd, heq⟩ | ⟨r, hd, heq⟩⟩⟩ <;>
      rw [heq] at hb <;> simp_all
  · intro m u b hb
    rcases hE with ⟨e, hp, heq⟩ |
      ⟨project, hp, ⟨e, hn, heq⟩ | ⟨hn, ⟨r, e, hd, heq⟩ | ⟨r, hd, heq⟩⟩⟩ <;>
      rw [heq] at hb <;> simp_all


/-- A collaborator whose `Do` always fails with a transport error and no
HTTP response. -/
def failClient : ClientBehavior :=
  { newRequestOutcome := fun _ _ _ => none,
    doOutcome := fun _ => DoOutcome.fail none (GoError.mk "transport error") }

/-- C4: for every project reference the identifier helper cannot resolve,
each of the four operations returns the resolution error with an empty
collaborator trace: neither `NewRequest` nor `Do` is ever invoked, so no
partial request is sent. -/
theorem invalid_ref_no_network (c : ClientBehavior) (pid : ProjectRef)
    (opt : AddPushRulesOptions) (e : GoError) (hp : parseID pid = .error e) :
    GetPushRule c pid =
      { rules := none, resp := none, err := some e, events := [] } ∧
    AddPushRule c pid opt =
      { rules := none, resp := none, err := some e, events := [], optAfter := opt } ∧
    EditPushRule c pid opt =
      { rules := none, resp := none, err := some e, events := [], optAfter := opt } ∧
    DeletePushRule c pid = { resp := none, err := some e, events := [] } :=
  ⟨GetPushRule_parse_error c pid e hp, AddPushRule_parse_error c pid opt e hp,
   EditPushRule_parse_error c pid opt e hp, DeletePushRule_parse_error c pid e hp⟩

theorem invalid_ref_no_network_witness :
    (GetPushRule okClient (ProjectRef.badRef "float64")).events = [] ∧
    (DeletePushRule okClient (ProjectRef.badRef "float64")).events = [] := by
  have h := invalid_ref_no_network okClient (ProjectRef.badRef "float64") noOptions
    (GoError.mk "invalid ID type float64, the ID must be an int or a string") (by rfl)
  exact ⟨by rw [h.1], by rw [h.2.2.2]⟩

/-- C7: the client holds no state between calls — each DeletePushRule
invocation is a pure function of the reference and the collaborator's
responses — so two sequential deletes whose collaborator responses both
report success both return a nil error: the second call never produces an
error class distinct from the first successful call. -/
theorem delete_idempotent_stateless (c1 c2 : ClientBehavior) (pid : ProjectRef)
    (project : String) (r1 r2 : Response)
    (hp : parseID pid = .ok project)
    (hn1 : c1.newRequestOutcome "DELETE"
      ("projects/" ++ queryEscape project ++ "/push_rule") none = none)
    (hd1 : c1.doOutcome { method := "DELETE", path := "projects/" ++ queryEscape project ++ "/push_rule", body := none } = .ok r1)
    (hn2 : c2.newRequestOutcome "DELETE"
      ("projects/" ++ queryEscape project ++ "/push_rule") none = none)
    (hd2 : c2.doOutcome { method := "DELETE", path := "projects/" ++ queryEscape project ++ "/push_rule", body := none } = .ok r2) :
    (DeletePushRule c1 pid).err = none ∧ (DeletePushRule c2 pid).err = none := by
  rw [DeletePushRule_do_ok c1 pid project r1 hp hn1 hd1,
    DeletePushRule_do_ok c2 pid project r2 hp hn2 hd2]
  exact ⟨rfl, rfl⟩

theorem delete_idempotent_stateless_witness :
    (DeletePushRule okClient (ProjectRef.intRef 42)).err = none :=
  (delete_idempotent_stateless okClient okClient (ProjectRef.intRef 42) "42"
    { statusCode := 200, bodyFields := [] } { statusCode := 200, bodyFields := [] }
    (by rfl) (by rfl) (by rfl) (by rfl) (by rfl)).1

/-- C9: whenever GetPushRule, AddPushRule or EditPushRule returns a non-nil
error, the returned push-rules pointer is nil — the caller never receives a
partially decoded value alongside an error. -/
theorem error_implies_nil_rules (c : ClientBehavior) (pid : ProjectRef)
    (opt : AddPushRulesOptions) :
    ((GetPushRule c pid).err ≠ none → (GetPushRule c pid).rules = none) ∧
    ((AddPushRule c pid opt).err ≠ none → (AddPushRule c pid opt).rules = none) ∧
    ((EditPushRule c pid opt).err ≠ none → (EditPushRule c pid opt).rules = none) := by
  refine ⟨fun hne => ?_, fun hne => ?_, fun hne => ?_⟩
  · rcases GetPushRule_cases c pid with ⟨e, hp, heq⟩ |
      ⟨project, hp, ⟨e, hn, heq⟩ | ⟨hn, ⟨r, e, hd, heq⟩ | ⟨r, hd, heq⟩⟩⟩ <;>
      rw [heq] at hne ⊢ <;> simp_all
  · rcases AddPushRule_cases c pid opt with ⟨e, hp, heq⟩ |
      ⟨project, hp, ⟨e, hn, heq⟩ | ⟨hn, ⟨r, e, hd, heq⟩ | ⟨r, hd, heq⟩⟩⟩ <;>
      rw [heq] at hne ⊢ <;> simp_all
  · rcases EditPushRule_cases c pid opt with ⟨e, hp, heq⟩ |
      ⟨project, hp, ⟨e, hn, heq⟩ | ⟨hn, ⟨r, e, hd, heq⟩ | ⟨r, hd, heq⟩⟩⟩ <;>
      rw [heq] at hne ⊢ <;> simp_all

theorem error_implies_nil_rules_witness :
    (GetPushRule failClient (ProjectRef.intRef 7)).rules = none :=
  (error_implies_nil_rules failClient (ProjectRef.intRef 7) noOptions).1 (by decide)


/-- C3 (counterexample): the identifier fields `id` and `project_id` are
plain Go `int`s, so absence is not distinct from the zero value: a
response carrying `"id": 0` decodes to exactly the same in-memory value as
a response omitting `id`; the decoded `ID` is the zero value rather than
being marked absent, and re-serializing omits it. -/
theorem id_absence_not_distinct :
    PushRules.unmarshal [("id", Json.num 0), ("deny_delete_tag", Json.bool true)] =
      PushRules.unmarshal [("deny_delete_tag", Json.bool true)] ∧
    (PushRules.unmarshal [("deny_delete_tag", Json.bool true)]).ID = 0 ∧
    Json.objKeys (PushRules.marshal (PushRules.unmarshal
      [("id", Json.num 0), ("deny_delete_tag", Json.bool true)])) =
      ["deny_delete_tag"] :=
  ⟨by decide, by decide, by rfl⟩

/-- C3 (amended): for the nine pointer fields, absence is distinct from a
false or zero value and round-trips: marshalling emits the field exactly
when it is set (even to a falsy value), and decoding a response that omits
the field leaves it nil.  The plain-int identifiers `id` and `project_id`
carry no absence marker: a zero value is omitted on serialization and a
missing field decodes to the zero value, so for them absence coincides
with zero rather than being distinct. -/
theorem optional_fields_roundtrip :
    (∀ p : PushRules,
      ("commit_message_regex" ∈ Json.objKeys p.marshal ↔ p.CommitMessageRegex.isSome) ∧
      ("branch_name_regex" ∈ Json.objKeys p.marshal ↔ p.BranchNameRegex.isSome) ∧
      ("deny_delete_tag" ∈ Json.objKeys p.marshal ↔ p.DenyDeleteTag.isSome) ∧
      ("created_at" ∈ Json.objKeys p.marshal ↔ p.CreatedAt.isSome) ∧
      ("member_check" ∈ Json.objKeys p.marshal ↔ p.MemberCheck.isSome) ∧
      ("prevent_secrets" ∈ Json.objKeys p.marshal ↔ p.PreventSecrets.isSome) ∧
      ("author_email_regex" ∈ Json.objKeys p.marshal ↔ p.AuthorEmailRegex.isSome) ∧
      ("file_name_regex" ∈ Json.objKeys p.marshal ↔ p.FileNameRegex.isSome) ∧
      ("max_file_size" ∈ Json.objKeys p.marshal ↔ p.MaxFileSizeMB.isSome) ∧
      ("id" ∈ Json.objKeys p.marshal ↔ p.ID ≠ 0) ∧
      ("project_id" ∈ Json.objKeys p.marshal ↔ p.PID ≠ 0)) ∧
    (∀ fs : List (String × Json),
      ("commit_message_regex" ∉ fs.map Prod.fst → (PushRules.unmarshal fs).CommitMessageRegex = none) ∧
      ("branch_name_regex" ∉ fs.map Prod.fst → (PushRules.unmarshal fs).BranchNameRegex = none) ∧
      ("deny_delete_tag" ∉ fs.map Prod.fst → (PushRules.unmarshal fs).DenyDeleteTag = none) ∧
      ("created_at" ∉ fs.map Prod.fst → (PushRules.unmarshal fs).CreatedAt = none) ∧
      ("member_check" ∉ fs.map Prod.fst → (PushRules.unmarshal fs).MemberCheck = none) ∧
      ("prevent_secrets" ∉ fs.map Prod.fst → (PushRules.unmarshal fs).PreventSecrets = none) ∧
      ("author_email_regex" ∉ fs.map Prod.fst → (PushRules.unmarshal fs).AuthorEmailRegex = none) ∧
      ("file_name_regex" ∉ fs.map Prod.fst → (PushRules.unmarshal fs).FileNameRegex = none) ∧
      ("max_file_size" ∉ fs.map Prod.fst → (PushRules.unmarshal fs).MaxFileSizeMB = none) ∧
      ("id" ∉ fs.map Prod.fst → (PushRules.unmarshal fs).ID = 0) ∧
      ("project_id" ∉ fs.map Prod.fst → (PushRules.unmarshal fs).PID = 0)) ∧
    (PushRules.unmarshal [("deny_delete_tag", Json.bool false)]).DenyDeleteTag =
      some false ∧
    (PushRules.unmarshal []).DenyDeleteTag = none ∧
    PushRules.unmarshal [("id", Json.num 1), ("project_id", Json.num 42),
        ("deny_delete_tag", Json.bool true)] =
      { PushRules.zero with ID := 1, PID := 42, DenyDeleteTag := some true } := by
  constructor
  · intro p
    refine ⟨?_, ?_, ?_, ?_, ?_, ?_, ?_, ?_, ?_, ?_, ?_⟩ <;>
      simp [mem_objKeys_marshal]
  constructor
  · intro fs
    exact ⟨fun h => (foldl_setField_pres (fun q => q.CommitMessageRegex) "commit_message_regex"
          (fun q kv hk => setField_CommitMessageRegex q kv hk) fs PushRules.zero h).trans rfl,
      fun h => (foldl_setField_pres (fun q => q.BranchNameRegex) "branch_name_regex"
          (fun q kv hk => setField_BranchNameRegex q kv hk) fs PushRules.zero h).trans rfl,
      fun h => (foldl_setField_pres (fun q => q.DenyDeleteTag) "deny_delete_tag"
          (fun q kv hk => setField_DenyDeleteTag q kv hk) fs PushRules.zero h).trans rfl,
      fun h => (foldl_setField_pres (fun q => q.CreatedAt) "created_at"
          (fun q kv hk => setField_CreatedAt q kv hk) fs PushRules.zero h).trans rfl,
      fun h => (foldl_setField_pres (fun q => q.MemberCheck) "member_check"
          (fun q kv hk => setField_MemberCheck q kv hk) fs PushRules.zero h).trans rfl,
      fun h => (foldl_setField_pres (fun q => q.PreventSecrets) "prevent_secrets"
          (fun q kv hk => setField_PreventSecrets q kv hk) fs PushRules.zero h).trans rfl,
      fun h => (foldl_setField_pres (fun q => q.AuthorEmailRegex) "author_email_regex"
          (fun q kv hk => setField_AuthorEmailRegex q kv hk) fs PushRules.zero h).trans rfl,
      fun h => (foldl_setField_pres (fun q => q.FileNameRegex) "file_name_regex"
          (fun q kv hk => setField_FileNameRegex q kv hk) fs PushRules.zero h).trans rfl,
      fun h => (foldl_setField_pres (fun q => q.MaxFileSizeMB) "max_file_size"
          (fun q kv hk => setField_MaxFileSizeMB q kv hk) fs PushRules.zero h).trans rfl,
      fun h => (foldl_setField_pres (fun q => q.ID) "id"
          (fun q kv hk => setField_ID q kv hk) fs PushRules.zero h).trans rfl,
      fun h => (foldl_setField_pres (fun q => q.PID) "project_id"
          (fun q kv hk => setField_PID q kv hk) fs PushRules.zero h).trans rfl⟩
  exact ⟨by decide, by decide, by decide⟩

theorem optional_fields_roundtrip_witness :
    (PushRules.unmarshal [("id", Json.num 7)]).DenyDeleteTag = none :=
  ((optional_fields_roundtrip.2.1 [("id", Json.num 7)]).2.2.1) (by decide)


lemma doCalls_nil : doCalls [] = 0 := rfl

lemma doCalls_cons_nr (m u : String) (b : Option Json) (t : List Event) :
    doCalls (Event.newRequestCall m u b :: t) = doCalls t := rfl

lemma doCalls_cons_do (req : Request) (t : List Event) :
    doCalls (Event.doCall req :: t) = doCalls t + 1 := by
  simp [doCalls, List.filter_cons]
















lemma GetPushRule_propagation (c : ClientBehavior) (pid : ProjectRef) :
    doCalls (GetPushRule c pid).events ≤ 1 ∧
    ((GetPushRule c pid).err = none → doCalls (GetPushRule c pid).events = 1) ∧
    (∀ req r e, Event.doCall req ∈ (GetPushRule c pid).events →
        c.doOutcome req = .fail r e →
        (GetPushRule c pid).err = some e ∧ (GetPushRule c pid).resp = r) ∧
    (∀ m u b e, Event.newRequestCall m u b ∈ (GetPushRule c pid).events →
        c.newRequestOutcome m u b = some e → (GetPushRule c pid).err = some e) := by
  rcases GetPushRule_cases c pid with ⟨e0, hp, heq⟩ | ⟨project, hp, hrest⟩
  · rw [heq]
    refine ⟨by simp [doCalls_nil], by simp, ?_, ?_⟩
    · intro req r e hmem hfail
      simp at hmem
    · intro m u b e hmem hout
      simp at hmem
  · rcases hrest with ⟨e0, hn, heq⟩ | ⟨hn, hrest2⟩
    · rw [heq]
      refine ⟨by simp [doCalls_cons_nr, doCalls_nil], by simp, ?_, ?_⟩
      · intro req r e hmem hfail
        simp at hmem
      · intro m u b e hmem hout
        simp only [List.mem_cons, List.not_mem_nil, or_false,
          Event.newRequestCall.injEq] at hmem
        obtain ⟨rfl, rfl, rfl⟩ := hmem
        rw [hn] at hout
        simpa using hout
    · rcases hrest2 with ⟨r0, e0, hd, heq⟩ | ⟨r0, hd, heq⟩
      · rw [heq]
        refine ⟨by simp [doCalls_cons_nr, doCalls_cons_do, doCalls_nil], by simp, ?_, ?_⟩
        · intro req r e hmem hfail
          simp only [List.mem_cons, List.not_mem_nil, or_false] at hmem
          rcases hmem with hmem | hmem
          · exact absurd hmem (by simp)
          · simp only [Event.doCall.injEq] at hmem
            subst hmem
            rw [hd] at hfail
            simp only [DoOutcome.fail.injEq] at hfail
            obtain ⟨rfl, rfl⟩ := hfail
            exact ⟨rfl, rfl⟩
        · intro m u b e hmem hout
          simp only [List.mem_cons, List.not_mem_nil, or_false] at hmem
          rcases hmem with hmem | hmem
          · simp only [Event.newRequestCall.injEq] at hmem
            obtain ⟨rfl, rfl, rfl⟩ := hmem
            rw [hn] at hout
            simp at hout
          · exact absurd hmem (by simp)
      · rw [heq]
        refine ⟨by simp [doCalls_cons_nr, doCalls_cons_do, doCalls_nil],
          by simp [doCalls_cons_nr, doCalls_cons_do, doCalls_nil], ?_, ?_⟩
        · intro req r e hmem hfail
          simp only [List.mem_cons, List.not_mem_nil, or_false] at hmem
          rcases hmem with hmem | hmem
          · exact absurd hmem (by simp)
          · simp only [Event.doCall.injEq] at hmem
            subst hmem
            rw [hd] at hfail
            simp at hfail
        · intro m u b e hmem hout
          simp only [List.mem_cons, List.not_mem_nil, or_false] at hmem
          rcases hmem with hmem | hmem
          · simp only [Event.newRequestCall.injEq] at hmem
            obtain ⟨rfl, rfl, rfl⟩ := hmem
            rw [hn] at hout
            simp at hout
          · exact absurd hmem (by simp)

lemma AddPushRule_propagation (c : ClientBehavior) (pid : ProjectRef) (opt : AddPushRulesOptions) :
    doCalls (AddPushRule c pid opt).events ≤ 1 ∧
    ((AddPushRule c pid opt).err = none → doCalls (AddPushRule c pid opt).events = 1) ∧
    (∀ req r e, Event.doCall req ∈ (AddPushRule c pid opt).events →
        c.doOutcome req = .fail r e →
        (AddPushRule c pid opt).err = some e ∧ (AddPushRule c pid opt).resp = r) ∧
    (∀ m u b e, Event.newRequestCall m u b ∈ (AddPushRule c pid opt).events →
        c.newRequestOutcome m u b = some e → (AddPushRule c pid opt).err = some e) := by
  rcases AddPushRule_cases c pid opt with ⟨e0, hp, heq⟩ | ⟨project, hp, hrest⟩
  · rw [heq]
    refine ⟨by simp [doCalls_nil], by simp, ?_, ?_⟩
    · intro req r e hmem hfail
      simp at hmem
    · intro m u b e hmem hout
      simp at hmem
  · rcases hrest with ⟨e0, hn, heq⟩ | ⟨hn, hrest2⟩
    · rw [heq]
      refine ⟨by simp [doCalls_cons_nr, doCalls_nil], by simp, ?_, ?_⟩
      · intro req r e hmem hfail
        simp at hmem
      · intro m u b e hmem hout
        simp only [List.mem_cons, List.not_mem_nil, or_false,
          Event.newRequestCall.injEq] at hmem
        obtain ⟨rfl, rfl, rfl⟩ := hmem
        rw [hn] at hout
        simpa using hout
    · rcases hrest2 with ⟨r0, e0, hd, heq⟩ | ⟨r0, hd, heq⟩
      · rw [heq]
        refine ⟨by simp [doCalls_cons_nr, doCalls_cons_do, doCalls_nil], by simp, ?_, ?_⟩
        · intro req r e hmem hfail
          simp only [List.mem_cons, List.not_mem_nil, or_false] at hmem
          rcases hmem with hmem | hmem
          · exact absurd hmem (by simp)
          · simp only [Event.doCall.injEq] at hmem
            subst hmem
            rw [hd] at hfail
            simp only [DoOutcome.fail.injEq] at hfail
            obtain ⟨rfl, rfl⟩ := hfail
            exact ⟨rfl, rfl⟩
        · intro m u b e hmem hout
          simp only [List.mem_cons, List.not_mem_nil, or_false] at hmem
          rcases hmem with hmem | hmem
          · simp only [Event.newRequestCall.injEq] at hmem
            obtain ⟨rfl, rfl, rfl⟩ := hmem
            rw [hn] at hout
            simp at hout
          · exact absurd hmem (by simp)
      · rw [heq]
        refine ⟨by simp [doCalls_cons_nr, doCalls_cons_do, doCalls_nil],
          by simp [doCalls_cons_nr, doCalls_cons_do, doCalls_nil], ?_, ?_⟩
        · intro req r e hmem hfail
          simp only [List.mem_cons, List.not_mem_nil, or_false] at hmem
          rcases hmem with hmem | hmem
          · exact absurd hmem (by simp)
          · simp only [Event.doCall.injEq] at hmem
            subst hmem
            rw [hd] at hfail
            simp at hfail
        · intro m u b e hmem hout
          simp only [List.mem_cons, List.not_mem_nil, or_false] at hmem
          rcases hmem with hmem | hmem
          · simp only [Event.newRequestCall.injEq] at hmem
            obtain ⟨rfl, rfl, rfl⟩ := hmem
            rw [hn] at hout
            simp at hout
          · exact absurd hmem (by simp)

lemma EditPushRule_propagation (c : ClientBehavior) (pid : ProjectRef) (opt : AddPushRulesOptions) :
    doCalls (EditPushRule c pid opt).events ≤ 1 ∧
    ((EditPushRule c pid opt).err = none → doCalls (EditPushRule c pid opt).events = 1) ∧
    (∀ req r e, Event.doCall req ∈ (EditPushRule c pid opt).events →
        c.doOutcome req = .fail r e →
        (EditPushRule c pid opt).err = some e ∧ (EditPushRule c pid opt).resp = r) ∧
    (∀ m u b e, Event.newRequestCall m u b ∈ (EditPushRule c pid opt).events →
        c.newRequestOutcome m u b = some e → (EditPushRule c pid opt).err = some e) := by
  rcases EditPushRule_cases c pid opt with ⟨e0, hp, heq⟩ | ⟨project, hp, hrest⟩
  · rw [heq]
    refine ⟨by simp [doCalls_nil], by simp, ?_, ?_⟩
    · intro req r e hmem hfail
      simp at hmem
    · intro m u b e hmem hout
      simp at hmem
  · rcases hrest with ⟨e0, hn, heq⟩ | ⟨hn, hrest2⟩
    · rw [heq]
      refine ⟨by simp [doCalls_cons_nr, doCalls_nil], by simp, ?_, ?_⟩
      · intro req r e hmem hfail
        simp at hmem
      · intro m u b e hmem hout
        simp only [List.mem_cons, List.not_mem_nil, or_false,
          Event.newRequestCall.injEq] at hmem
        obtain ⟨rfl, rfl, rfl⟩ := hmem
        rw [hn] at hout
        simpa using hout
    · rcases hrest2 with ⟨r0, e0, hd, heq⟩ | ⟨r0, hd, heq⟩
      · rw [heq]
        refine ⟨by simp [doCalls_cons_nr, doCalls_cons_do, doCalls_nil], by simp, ?_, ?_⟩
        · intro req r e hmem hfail
          simp only [List.mem_cons, List.not_mem_nil, or_false] at hmem
          rcases hmem with hmem | hmem
          · exact absurd hmem (by simp)
          · simp only [Event.doCall.injEq] at hmem
            subst hmem
            rw [hd] at hfail
            simp only [DoOutcome.fail.injEq] at hfail
            obtain ⟨rfl, rfl⟩ := hfail
            exact ⟨rfl, rfl⟩
        · intro m u b e hmem hout
          simp only [List.mem_cons, List.not_mem_nil, or_false] at hmem
          rcases hmem with hmem | hmem
          · simp only [Event.newRequestCall.injEq] at hmem
            obtain ⟨rfl, rfl, rfl⟩ := hmem
            rw [hn] at hout
            simp at hout
          · exact absurd hmem (by simp)
      · rw [heq]
        refine ⟨by simp [doCalls_cons_nr, doCalls_cons_do, doCalls_nil],
          by simp [doCalls_cons_nr, doCalls_cons_do, doCalls_nil], ?_, ?_⟩
        · intro req r e hmem hfail
          simp only [List.mem_cons, List.not_mem_nil, or_false] at hmem
          rcases hmem with hmem | hmem
          · exact absurd hmem (by simp)
          · simp only [Event.doCall.injEq] at hmem
            subst hmem
            rw [hd] at hfail
            simp at hfail
        · intro m u b e hmem hout
          simp only [List.mem_cons, List.not_mem_nil, or_false] at hmem
          rcases hmem with hmem | hmem
          · simp only [Event.newRequestCall.injEq] at hmem
            obtain ⟨rfl, rfl, rfl⟩ := hmem
            rw [hn] at hout
            simp at hout
          · exact absurd hmem (by simp)

lemma DeletePushRule_propagation (c : ClientBehavior) (pid : ProjectRef) :
    doCalls (DeletePushRule c pid).events ≤ 1 ∧
    ((DeletePushRule c pid).err = none → doCalls (DeletePushRule c pid).events = 1) ∧
    (∀ req r e, Event.doCall req ∈ (DeletePushRule c pid).events →
        c.doOutcome req = .fail r e →
        (DeletePushRule c pid).err = some e ∧ (DeletePushRule c pid).resp = r) ∧
    (∀ m u b e, Event.newRequestCall m u b ∈ (DeletePushRule c pid).events →
        c.newRequestOutcome m u b = some e → (DeletePushRule c pid).err = some e) := by
  rcases DeletePushRule_cases c pid with ⟨e0, hp, heq⟩ | ⟨project, hp, hrest⟩
  · rw [heq]
    refine ⟨by simp [doCalls_nil], by simp, ?_, ?_⟩
    · intro req r e hmem hfail
      simp at hmem
    · intro m u b e hmem hout
      simp at hmem
  · rcases hrest with ⟨e0, hn, heq⟩ | ⟨hn, hrest2⟩
    · rw [heq]
      refine ⟨by simp [doCalls_cons_nr, doCalls_nil], by simp, ?_, ?_⟩
      · intro req r e hmem hfail
        simp at hmem
      · intro m u b e hmem hout
        simp only [List.mem_cons, List.not_mem_nil, or_false,
          Event.newRequestCall.injEq] at hmem
        obtain ⟨rfl, rfl, rfl⟩ := hmem
        rw [hn] at hout
        simpa using hout
    · rcases hrest2 with ⟨r0, e0, hd, heq⟩ | ⟨r0, hd, heq⟩
      · rw [heq]
        refine ⟨by simp [doCalls_cons_nr, doCalls_cons_do, doCalls_nil], by simp, ?_, ?_⟩
        · intro req r e hmem hfail
          simp only [List.mem_cons, List.not_mem_nil, or_false] at hmem
          rcases hmem with hmem | hmem
          · exact absurd hmem (by simp)
          · simp only [Event.doCall.injEq] at hmem
            subst hmem
            rw [hd] at hfail
            simp only [DoOutcome.fail.injEq] at hfail
            obtain ⟨rfl, rfl⟩ := hfail
            exact ⟨rfl, rfl⟩
        · intro m u b e hmem hout
          simp only [List.mem_cons, List.not_mem_nil, or_false] at hmem
          rcases hmem with hmem | hmem
          · simp only [Event.newRequestCall.injEq] at hmem
            obtain ⟨rfl, rfl, rfl⟩ := hmem
            rw [hn] at hout
            simp at hout
          · exact absurd hmem (by simp)
      · rw [heq]
        refine ⟨by simp [doCalls_cons_nr, doCalls_cons_do, doCalls_nil],
          by simp [doCalls_cons_nr, doCalls_cons_do, doCalls_nil], ?_, ?_⟩
        · intro req r e hmem hfail
          simp only [List.mem_cons, List.not_mem_nil, or_false] at hmem
          rcases hmem with hmem | hmem
          · exact absurd hmem (by simp)
          · simp only [Event.doCall.injEq] at hmem
            subst hmem
            rw [hd] at hfail
            simp at hfail
        · intro m u b e hmem hout
          simp only [List.mem_cons, List.not_mem_nil, or_false] at hmem
          rcases hmem with hmem | hmem
          · simp only [Event.newRequestCall.injEq] at hmem
            obtain ⟨rfl, rfl, rfl⟩ := hmem
            rw [hn] at hout
            simp at hout
          · exact absurd hmem (by simp)


/-- C8: every error — from reference resolution, request construction,
transport or decoding — is returned to the caller immediately and
unchanged (the collaborator error value is propagated as-is, never
retried, swallowed or rewritten); each invocation performs at most one
`Do` call, exactly one on the non-error path; and DeletePushRule does not
special-case any failing response (such as a 404) to fabricate success:
whatever error `Do` reports is what the caller gets. -/
theorem error_propagation_single_call (c : ClientBehavior) (pid : ProjectRef)
    (opt : AddPushRulesOptions) :
    (doCalls (GetPushRule c pid).events ≤ 1 ∧
     ((GetPushRule c pid).err = none → doCalls (GetPushRule c pid).events = 1) ∧
     (∀ req r e, Event.doCall req ∈ (GetPushRule c pid).events →
         c.doOutcome req = .fail r e →
         (GetPushRule c pid).err = some e ∧ (GetPushRule c pid).resp = r) ∧
     (∀ m u b e, Event.newRequestCall m u b ∈ (GetPushRule c pid).events →
         c.newRequestOutcome m u b = some e → (GetPushRule c pid).err = some e)) ∧
    (doCalls (AddPushRule c pid opt).events ≤ 1 ∧
     ((AddPushRule c pid opt).err = none → doCalls (AddPushRule c pid opt).events = 1) ∧
     (∀ req r e, Event.doCall req ∈ (AddPushRule c pid opt).events →
         c.doOutcome req = .fail r e →
         (AddPushRule c pid opt).err = some e ∧ (AddPushRule c pid opt).resp = r) ∧
     (∀ m u b e, Event.newRequestCall m u b ∈ (AddPushRule c pid opt).events →
         c.newRequestOutcome m u b = some e → (AddPushRule c pid opt).err = some e)) ∧
    (doCalls (EditPushRule c pid opt).events ≤ 1 ∧
     ((EditPushRule c pid opt).err = none → doCalls (EditPushRule c pid opt).events = 1) ∧
     (∀ req r e, Event.doCall req ∈ (EditPushRule c pid opt).events →
         c.doOutcome req = .fail r e →
         (EditPushRule c pid opt).err = some e ∧ (EditPushRule c pid opt).resp = r) ∧
     (∀ m u b e, Event.newRequestCall m u b ∈ (EditPushRule c pid opt).events →
         c.newRequestOutcome m u b = some e → (EditPushRule c pid opt).err = some e)) ∧
    (doCalls (DeletePushRule c pid).events ≤ 1 ∧
     ((DeletePushRule c pid).err = none → doCalls (DeletePushRule c pid).events = 1) ∧
     (∀ req r e, Event.doCall req ∈ (DeletePushRule c pid).events →
         c.doOutcome req = .fail r e →
         (DeletePushRule c pid).err = some e ∧ (DeletePushRule c pid).resp = r) ∧
     (∀ m u b e, Event.newRequestCall m u b ∈ (DeletePushRule c pid).events →
         c.newRequestOutcome m u b = some e → (DeletePushRule c pid).err = some e)) :=
  ⟨GetPushRule_propagation c pid, AddPushRule_propagation c pid opt,
   EditPushRule_propagation c pid opt, DeletePushRule_propagation c pid⟩

theorem error_propagation_single_call_witness :
    doCalls (DeletePushRule okClient (ProjectRef.intRef 5)).events = 1 :=
  (error_propagation_single_call okClient (ProjectRef.intRef 5) noOptions).2.2.2.2.1
    (by decide)


/-- C5: the JSON wire names of the `PushRules` fields are exactly `id`,
`project_id`, `commit_message_regex`, `branch_name_regex`,
`deny_delete_tag`, `created_at`, `member_check`, `prevent_secrets`,
`author_email_regex`, `file_name_regex` and `max_file_size` (in
particular the max-file-size field serializes as `max_file_size`, never
`max_file_size_mb`), and every field is omitted from the serialized
payload when unset rather than emitted as null. -/
theorem wire_contract (p : PushRules) (o : AddPushRulesOptions) :
    Json.objKeys (PushRules.marshal
      { ID := 1, PID := 2, CommitMessageRegex := some "a",
        BranchNameRegex := some "b", DenyDeleteTag := some true,
        CreatedAt := some (GoTime.mk "t"), MemberCheck := some false,
        PreventSecrets := some true, AuthorEmailRegex := some "c",
        FileNameRegex := some "d", MaxFileSizeMB := some 5 }) = wireNames ∧
    Json.objKeys (AddPushRulesOptions.marshal
      { CommitMessageRegex := some "a", BranchNameRegex := some "b",
        DenyDeleteTag := some true, MemberCheck := some false,
        PreventSecrets := some true, AuthorEmailRegex := some "c",
        FileNameRegex := some "d", MaxFileSizeMB := some 5 }) =
      ["commit_message_regex", "branch_name_regex", "deny_delete_tag",
       "member_check", "prevent_secrets", "author_email_regex",
       "file_name_regex", "max_file_size"] ∧
    (∀ a ∈ Json.objKeys p.marshal, a ∈ wireNames) ∧
    "max_file_size_mb" ∉ Json.objKeys p.marshal ∧
    (∀ kv ∈ (PushRules.marshal p).objFields, kv.2 ≠ Json.null) ∧
    (∀ kv ∈ (AddPushRulesOptions.marshal o).objFields, kv.2 ≠ Json.null) ∧
    (p.ID = 0 → "id" ∉ Json.objKeys p.marshal) ∧
    (p.PID = 0 → "project_id" ∉ Json.objKeys p.marshal) ∧
    (p.CommitMessageRegex = none → "commit_message_regex" ∉ Json.objKeys p.marshal) ∧
    (p.BranchNameRegex = none → "branch_name_regex" ∉ Json.objKeys p.marshal) ∧
    (p.DenyDeleteTag = none → "deny_delete_tag" ∉ Json.objKeys p.marshal) ∧
    (p.CreatedAt = none → "created_at" ∉ Json.objKeys p.marshal) ∧
    (p.MemberCheck = none → "member_check" ∉ Json.objKeys p.marshal) ∧
    (p.PreventSecrets = none → "prevent_secrets" ∉ Json.objKeys p.marshal) ∧
    (p.AuthorEmailRegex = none → "author_email_regex" ∉ Json.objKeys p.marshal) ∧
    (p.FileNameRegex = none → "file_name_regex" ∉ Json.objKeys p.marshal) ∧
    (p.MaxFileSizeMB = none → "max_file_size" ∉ Json.objKeys p.marshal) := by
  refine ⟨by decide, by decide, ?_, by simp [mem_objKeys_marshal],
    marshal_no_null p, marshalOptions_no_null o,
    ?_, ?_, ?_, ?_, ?_, ?_, ?_, ?_, ?_, ?_, ?_⟩
  · intro a ha
    rw [mem_objKeys_marshal] at ha
    rcases ha with ⟨rfl, -⟩ | ⟨rfl, -⟩ | ⟨rfl, -⟩ | ⟨rfl, -⟩ | ⟨rfl, -⟩ | ⟨rfl, -⟩ | ⟨rfl, -⟩ | ⟨rfl, -⟩ | ⟨rfl, -⟩ | ⟨rfl, -⟩ | ⟨rfl, -⟩ <;> decide
  · intro h0
    simp [mem_objKeys_marshal, h0]
  · intro h0
    simp [mem_objKeys_marshal, h0]
  · intro h0
    simp [mem_objKeys_marshal, h0]
  · intro h0
    simp [mem_objKeys_marshal, h0]
  · intro h0
    simp [mem_objKeys_marshal, h0]
  · intro h0
    simp [mem_objKeys_marshal, h0]
  · intro h0
    simp [mem_objKeys_marshal, h0]
  · intro h0
    simp [mem_objKeys_marshal, h0]
  · intro h0
    simp [mem_objKeys_marshal, h0]
  · intro h0
    simp [mem_objKeys_marshal, h0]
  · intro h0
    simp [mem_objKeys_marshal, h0]

theorem wire_contract_witness :
    "id" ∉ Json.objKeys (PushRules.marshal PushRules.zero) :=
  (wire_contract PushRules.zero noOptions).2.2.2.2.2.2.1 (by rfl)


theorem options_passed_unmutated_witness :
    (AddPushRule okClient (ProjectRef.intRef 3) noOptions).optAfter = noOptions :=
  (options_passed_unmutated okClient (ProjectRef.intRef 3) noOptions).1

end PushRulesSpec
